import Mathlib

/-!
Shallow embedding of `amusic.py` (matthew-brett/amusic-maker): the idempotent,
fingerprint-gated build pipeline (Fingerprint Store / Computation, Conversion
Stage, Image Stage, Track Build Orchestrator) and the MusicBrainz metadata
adapter (`MBInfo`).

Modelling conventions:
* Python scalar/collection values are the inductive `PyVal` (strings, ints,
  `datetime.date`, lists, dicts-as-ordered-association-lists, `None`).
  Every dict the original program compares for equality has both sides in
  sorted-key form (they come out of `json.loads(json.dumps(.., sort_keys=True))`,
  or are literals whose keys happen to be sorted), so structural equality of
  the ordered representation coincides with Python's order-insensitive dict
  equality at every comparison site.
* `json.loads(json.dumps(v, default=_obj2jobj, sort_keys=True))` is the pure
  function `jr` (dates become fixed-format strings, dict keys get sorted).
* The filesystem is `FS`: a map from path to regular-file data (mtime plus
  content) together with a separate map from tracked path to its fingerprint
  sidecar (the on-disk file `path + '.json'`, stored parsed).  File mtimes are
  integers; each write stamps the current clock and advances it.
* External effects (`sox`, `md5`, tag writing, `shutil.copyfile`) are recorded
  in an event trace; `sox` and the md5 digest are modelled as deterministic
  functions of the input content, matching the code's assumption that the
  transcoder is deterministic and re-runnable.
* Python exceptions are `Except Err`; functions that mutate the filesystem
  return an `Out α` bundling result, final state and event trace (state
  already mutated before an exception is preserved, as in Python).
-/

namespace Amusic

/-- Python values as passed around by `amusic.py` (JSON-serializable scalars,
`datetime.date`, lists, and insertion-ordered dicts). -/
inductive PyVal where
  | none
  | str (s : String)
  | int (n : Int)
  | date (y m d : Nat)
  | list (xs : List PyVal)
  | dict (kvs : List (String × PyVal))

/-- Python `==` on the values above (structural; the dicts compared by the
program are all in sorted-key form on both sides, where this coincides with
Python's order-insensitive dict equality). -/
def PyVal.beq : PyVal → PyVal → Bool
  | .none, .none => true
  | .str a, .str b => a == b
  | .int a, .int b => a == b
  | .date y m d, .date y' m' d' => y == y' && m == m' && d == d'
  | .list [], .list [] => true
  | .list (x :: xs), .list (y :: ys) => x.beq y && (PyVal.list xs).beq (.list ys)
  | .dict [], .dict [] => true
  | .dict ((k, v) :: kvs), .dict ((l, w) :: lws) =>
      k == l && v.beq w && (PyVal.dict kvs).beq (.dict lws)
  | _, _ => false

theorem PyVal.beq_refl : ∀ a : PyVal, a.beq a = true
  | .none => by simp [PyVal.beq]
  | .str s => by simp [PyVal.beq]
  | .int n => by simp [PyVal.beq]
  | .date y m d => by simp [PyVal.beq]
  | .list [] => by simp [PyVal.beq]
  | .list (x :: xs) => by
      simp [PyVal.beq, PyVal.beq_refl x, PyVal.beq_refl (.list xs)]
  | .dict [] => by simp [PyVal.beq]
  | .dict ((k, v) :: kvs) => by
      simp [PyVal.beq, PyVal.beq_refl v, PyVal.beq_refl (.dict kvs)]

/-- `datetime.date.strftime('%Y-%m-%d')` (zero-padded). -/
def fmtDate (y m d : Nat) : String :=
  let pad2 := fun (n : Nat) => if n < 10 then "0" ++ toString n else toString n
  let pad4 := fun (n : Nat) =>
    if n < 10 then "000" ++ toString n
    else if n < 100 then "00" ++ toString n
    else if n < 1000 then "0" ++ toString n
    else toString n
  pad4 y ++ "-" ++ pad2 m ++ "-" ++ pad2 d

/-- Insert one key-value pair into a key-sorted association list
(stable insertion sort step, ordering by key as `json.dumps(sort_keys=True)`). -/
def insortKey (p : String × PyVal) : List (String × PyVal) → List (String × PyVal)
  | [] => [p]
  | q :: qs => if p.1 ≤ q.1 then p :: q :: qs else q :: insortKey p qs

/-- Sort an association list by key (as `json.dumps(.., sort_keys=True)` does). -/
def sortKeys (kvs : List (String × PyVal)) : List (String × PyVal) :=
  kvs.foldr insortKey []

mutual

/-- `json.loads(json.dumps(v, default=_obj2jobj, sort_keys=True))`: the
serialize-parse round trip used by `dict2json`/`stored_params_for`.  Dates are
rendered via `DATE_FMT`; dict keys come back sorted. -/
def jr : PyVal → PyVal
  | .none => .none
  | .str s => .str s
  | .int n => .int n
  | .date y m d => .str (fmtDate y m d)
  | .list xs => .list (jrList xs)
  | .dict kvs => .dict (sortKeys (jrKvs kvs))

def jrList : List PyVal → List PyVal
  | [] => []
  | x :: xs => jr x :: jrList xs

def jrKvs : List (String × PyVal) → List (String × PyVal)
  | [] => []
  | (k, v) :: kvs => (k, jr v) :: jrKvs kvs

end

/-- Association-list lookup (`dict.get`). -/
def alookup (kvs : List (String × PyVal)) (k : String) : Option PyVal :=
  match kvs with
  | [] => Option.none
  | (k', v) :: rest => if k' = k then some v else alookup rest k

/-- Remove a key (`dict.pop` after the lookup succeeded). -/
def aremove (kvs : List (String × PyVal)) (k : String) : List (String × PyVal) :=
  match kvs with
  | [] => []
  | (k', v) :: rest => if k' = k then aremove rest k else (k', v) :: aremove rest k

/-- `d[k] = v` on an insertion-ordered dict: overwrite in place, else append. -/
def aset (kvs : List (String × PyVal)) (k : String) (v : PyVal) :
    List (String × PyVal) :=
  match kvs with
  | [] => [(k, v)]
  | (k', v') :: rest =>
    if k' = k then (k, v) :: rest else (k', v') :: aset rest k v

/-- `base.copy(); base.update(upd)`: base keys (overridden where `upd` has
them) in base order, then the genuinely new keys of `upd` in `upd` order. -/
def aupdate (base upd : List (String × PyVal)) : List (String × PyVal) :=
  (base.map (fun kv => (kv.1, (alookup upd kv.1).getD kv.2))) ++
    upd.filter (fun kv => (alookup base kv.1).isNone)

/-! ## Filesystem state, errors and event traces -/

/-- Python exceptions raised by the modelled code. -/
inductive Err where
  | runtimeError (msg : String)
  | keyError (k : String)
  | assertionError
  | valueError (msg : String)
  | fileNotFound (p : String)
  | typeError
  | attributeError
deriving DecidableEq

/-- Content of a regular file: raw bytes (identified by a content id), a
transcoder output (deterministic in source content and parameters), or a
tagged copy produced by `write_tags`. -/
inductive FContent where
  | bytes (id : Nat)
  | img (w h id : Nat)
  | conv (src : FContent) (soxParams : List PyVal)
  | tagged (orig : FContent) (entry : PyVal) (art : Nat × Nat × Nat)

/-- A regular file: modification time and content. -/
structure FData where
  mtime : Int
  data : FContent

/-- A fingerprint sidecar (the file `path + PARAMS_EXT`), stored parsed: its
JSON value and its modification time. -/
structure SData where
  mtime : Int
  v : PyVal

/-- Filesystem state: a clock (writes stamp it and advance it), the regular
files, and the fingerprint sidecars keyed by the path they protect. -/
structure FS where
  clock : Int
  files : String → Option FData
  sides : String → Option SData

/-- Write (create or truncate) a regular file: fresh mtime from the clock. -/
def FS.writeFile (fs : FS) (p : String) (c : FContent) : FS :=
  ⟨fs.clock + 1,
   fun q => if q = p then some ⟨fs.clock, c⟩ else fs.files q,
   fs.sides⟩

/-- Write the sidecar protecting `p`: fresh mtime from the clock. -/
def FS.writeSide (fs : FS) (p : String) (v : PyVal) : FS :=
  ⟨fs.clock + 1,
   fs.files,
   fun q => if q = p then some ⟨fs.clock, v⟩ else fs.sides q⟩

/-- `os.utime` on the sidecar protecting `p`. -/
def FS.utimeSide (fs : FS) (p : String) (t : Int) : FS :=
  ⟨fs.clock,
   fs.files,
   fun q => if q = p then (fs.sides p).map (fun s => ⟨t, s.v⟩) else fs.sides q⟩

/-- External effects performed by the pipeline. -/
inductive Event where
  | md5 (p : String)
  | sox (inf : String) (args : List String) (outf : String)
  | copy (src dst : String)
  | tags (p : String)
  | writeParams (p : String)
deriving DecidableEq

/-- Is this event an invocation of the external transcoder? -/
def Event.isSox : Event → Bool
  | .sox .. => true
  | _ => false

/-- Result of running an effectful piece of the pipeline: outcome, final
filesystem, event trace.  As in Python, mutations made before an exception
was raised are kept in `fs`. -/
structure Out (α : Type) where
  res : Except Err α
  fs : FS
  ev : List Event

/-! ## Fingerprint store (`stored_params_for` / `write_params_for`) -/

/-- `str(p)` as used for the `sox` command line. -/
def pyStr : PyVal → String
  | .none => "None"
  | .str s => s
  | .int n => toString n
  | .date y m d => fmtDate y m d
  | .list _ => "[...]"
  | .dict _ => "{...}"

/-- The md5 digest of a file's content (`check_output(['md5', '-q', f])`),
modelled as a deterministic function of the content. -/
def md5digest : FContent → String
  | .bytes id => "md5-bytes-" ++ toString id
  | .img w h id =>
      "md5-img-" ++ toString w ++ "-" ++ toString h ++ "-" ++ toString id
  | .conv .. => "md5-conv"
  | .tagged .. => "md5-tagged"

/-- `stored_params_for(fname, tdelta=-1)`: absent sidecar or sidecar with
mtime earlier than `getmtime(fname) + tdelta` reads as `None`; otherwise the
parsed sidecar value.  `op.getmtime(fname)` raises when the tracked file is
missing while its sidecar exists. -/
def stored_params_for (fname : String) (tdelta : Int := -1) (fs : FS) :
    Except Err (Option PyVal) :=
  match fs.sides fname with
  | Option.none => .ok Option.none
  | some sd =>
    match fs.files fname with
    | Option.none => .error (.fileNotFound fname)
    | some fd =>
      if sd.mtime < fd.mtime + tdelta then .ok Option.none
      else .ok (some sd.v)

/-- `write_params_for(params, out_fname, tdelta=1)`: serialize the params to
the sidecar (readers will see the round-tripped value `jr params`), then
force the sidecar's mtime to `getmtime(out_fname) + tdelta`.  If `out_fname`
is missing the sidecar file has still been written when `getmtime` raises. -/
def write_params_for (params : PyVal) (out_fname : String) (tdelta : Int := 1)
    (fs : FS) : Out Unit :=
  let fs1 := fs.writeSide out_fname (jr params)
  match fs.files out_fname with
  | Option.none => ⟨.error (.fileNotFound out_fname), fs1, [.writeParams out_fname]⟩
  | some fd =>
      ⟨.ok (), fs1.utimeSide out_fname (fd.mtime + tdelta),
       [.writeParams out_fname]⟩

/-- The leaf fingerprint `{'md5': md5sum}` of a content. -/
def hashParams (c : FContent) : PyVal :=
  .dict [("md5", .str (md5digest c))]

/-- `write_hash_for_fname(in_fname)`: md5 the file, store the result as its
sidecar and return it. -/
def write_hash_for_fname (in_fname : String) (fs : FS) : Out PyVal :=
  match fs.files in_fname with
  | Option.none => ⟨.error (.fileNotFound in_fname), fs, []⟩
  | some fd =>
    let params := hashParams fd.data
    let w := write_params_for params in_fname 1 fs
    ⟨w.res.map (fun _ => params), w.fs, .md5 in_fname :: w.ev⟩

/-! ## Path helpers (`os.path` as used by the script, POSIX flavour) -/

/-- `os.path.join(a, b)` for the relative two-argument uses in the script. -/
def pjoin (a b : String) : String :=
  if a = "" then b else a ++ "/" ++ b

/-- `os.path.basename`. -/
def basename (s : String) : String :=
  String.mk ((s.toList.reverse.takeWhile (fun c => c ≠ '/')).reverse)

/-- The directory part of a path (complement of `basename`). -/
def dirpart (s : String) : String :=
  String.mk (s.toList.take (s.toList.length - (basename s).toList.length))

/-- `os.path.splitext(s)[0]`: strip the extension after the last dot of the
basename, where the leading dots of the basename never start an extension. -/
def splitextRoot (s : String) : String :=
  let b := (basename s).toList
  let lead := b.takeWhile (fun c => c = '.')
  let rest := b.drop lead.length
  if rest.contains '.' then
    dirpart s ++ String.mk (lead ++ (rest.reverse.dropWhile (fun c => c ≠ '.')).reverse.dropLast)
  else s

/-! ## Conversion stage (`convert_file` / `write_converted_file`) -/

/-- The composite fingerprint `dict(in_params=.., sox_params=..)` expected of
a converted artifact. -/
def convParams (inParams : PyVal) (sox : List PyVal) : PyVal :=
  .dict [("in_params", inParams), ("sox_params", .list sox)]

/-- The part of `convert_file` after the walrus line refreshing the
source-fingerprint (`step` is the state of that refresh): compare the
artifact's stored fingerprint with the expected composite one, skip the
transcoder on a match, and otherwise run `sox` and persist the new
fingerprint. -/
def convert_file_rest (in_fname out_fname : String) (sox : List PyVal)
    (step : Out PyVal) : Out PyVal :=
  match step.res with
  | .error e => ⟨.error e, step.fs, step.ev⟩
  | .ok inParams =>
    let params := convParams inParams sox
    match stored_params_for out_fname (-1) step.fs with
    | .error e => ⟨.error e, step.fs, step.ev⟩
    | .ok so =>
      if (match so with
          | some v => v.beq params
          | Option.none => false) then
        ⟨.ok params, step.fs, step.ev⟩
      else
        match step.fs.files in_fname with
        | Option.none => ⟨.error (.fileNotFound in_fname), step.fs, step.ev⟩
        | some fdin =>
          let fs2 := step.fs.writeFile out_fname (.conv fdin.data sox)
          let w := write_params_for params out_fname 1 fs2
          ⟨w.res.map (fun _ => params), w.fs,
           step.ev ++ [.sox in_fname (sox.map pyStr) out_fname] ++ w.ev⟩

/-- `convert_file(in_fname, out_fname, sox_params)`: refresh the source's
leaf fingerprint if its sidecar is stale/absent, then hand to
`convert_file_rest`. -/
def convert_file (in_fname out_fname : String) (sox : List PyVal) (fs : FS) :
    Out PyVal :=
  match stored_params_for in_fname (-1) fs with
  | .error e => ⟨.error e, fs, []⟩
  | .ok mo =>
    convert_file_rest in_fname out_fname sox
      (match mo with
       | some v => ⟨.ok v, fs, []⟩
       | Option.none => write_hash_for_fname in_fname fs)

/-- Process-wide settings (the `settings` section of the config). -/
structure Settings where
  wav_paths : List String
  img_paths : List String
  out_path : String
  conv_path : String
  conv_ext : String
  sox_params : List PyVal
  min_img_size : Nat × Nat
  out_dim : Nat

/-- The shared intermediate artifact path used by `write_converted_file`:
`conv_path / (basename(splitext(in_fname)[0]) + conv_ext)`. -/
def convName (in_fname : String) (st : Settings) : String :=
  pjoin st.conv_path (basename (splitextRoot in_fname) ++ st.conv_ext)

/-- `write_converted_file(in_fname, full_out_fname, settings)`: convert into
the shared cache, then copy the cached artifact over the destination.
(`ensure_dir` only touches directories, which the model does not track.) -/
def write_converted_file (in_fname full_out_fname : String) (st : Settings)
    (fs : FS) : Out PyVal :=
  let conv := convName in_fname st
  let c := convert_file in_fname conv st.sox_params fs
  match c.res with
  | .error e => ⟨.error e, c.fs, c.ev⟩
  | .ok p =>
    match c.fs.files conv with
    | Option.none => ⟨.error (.fileNotFound conv), c.fs, c.ev⟩
    | some fd =>
      ⟨.ok p, c.fs.writeFile full_out_fname fd.data,
       c.ev ++ [.copy conv full_out_fname]⟩

/-! ## Image stage (`resize_img` / `write_proc_image`) -/

/-- `resize_img(img, target_res)`: unchanged when the longest edge is within
`target_res`, else both dimensions scaled by `target_res / max(img.size)`
(float truncation modelled as natural-number division). -/
def resize_img (wh : Nat × Nat) (target_res : Nat) : Nat × Nat :=
  if max wh.1 wh.2 ≤ target_res then wh
  else (wh.1 * target_res / max wh.1 wh.2, wh.2 * target_res / max wh.1 wh.2)

/-- Python's `img.size < tuple(min_img_size)`: LEXICOGRAPHIC tuple
comparison of `(width, height)` pairs, exactly as `<` behaves on tuples. -/
def tupLt (a b : Nat × Nat) : Bool :=
  a.1 < b.1 || (a.1 = b.1 && a.2 < b.2)

/-- `write_proc_image(img_fname, min_img_size, out_dim)`: refresh the source
image's leaf fingerprint if stale/absent, open the image, apply the
resolution gate (`img.size < tuple(min_img_size)` — lexicographic), resize,
and return the fingerprint with the encoded JPEG bytes (modelled as the
final dimensions plus content id). -/
def write_proc_image (img_fname : String) (min_img_size : Nat × Nat)
    (out_dim : Nat) (fs : FS) : Out (PyVal × (Nat × Nat × Nat)) :=
  match stored_params_for img_fname (-1) fs with
  | .error e => ⟨.error e, fs, []⟩
  | .ok mo =>
    let step : Out PyVal :=
      match mo with
      | some v => ⟨.ok v, fs, []⟩
      | Option.none => write_hash_for_fname img_fname fs
    match step.res with
    | .error e => ⟨.error e, step.fs, step.ev⟩
    | .ok imgParams =>
      match step.fs.files img_fname with
      | Option.none => ⟨.error (.fileNotFound img_fname), step.fs, step.ev⟩
      | some fd =>
        match fd.data with
        | .img w h id =>
          if tupLt (w, h) min_img_size then
            ⟨.error (.valueError ("Low resolution image " ++ img_fname)),
             step.fs, step.ev⟩
          else
            let wh := resize_img (w, h) out_dim
            ⟨.ok (imgParams, (wh.1, wh.2, id)), step.fs, step.ev⟩
        | _ => ⟨.error (.valueError ("cannot identify image " ++ img_fname)),
                step.fs, step.ev⟩

/-! ## Tag writing and the track build (`write_tags` / `write_song`) -/

/-- `write_tags(full_out_fname, entry, img_data)`: writes the tags and the
cover art into the output file (re-saving it, so its mtime moves to now).
When the entry has no `details`, `entry['title']` is required. -/
def write_tags (full_out_fname : String) (entry : PyVal)
    (img_data : Nat × Nat × Nat) (fs : FS) : Out Unit :=
  match entry with
  | .dict kvs =>
    if (alookup kvs "details").isSome || (alookup kvs "title").isSome then
      match fs.files full_out_fname with
      | Option.none => ⟨.error (.fileNotFound full_out_fname), fs, []⟩
      | some fd =>
        ⟨.ok (), fs.writeFile full_out_fname (.tagged fd.data entry img_data),
         [.tags full_out_fname]⟩
    else ⟨.error (.keyError "title"), fs, []⟩
  | _ => ⟨.error .typeError, fs, []⟩

/-- The overall expected fingerprint
`dict(music_params=.., img_params=.., entry=..)` of `write_song`. -/
def expParams (musicParams imgParams entry : PyVal) : PyVal :=
  .dict [("music_params", musicParams), ("img_params", imgParams),
         ("entry", entry)]

/-- `stored_params_for` returns `None` or a dict; the dict literal in
`write_song` stores that value directly (Python `None` becomes `PyVal.none`). -/
def optVal (o : Option PyVal) : PyVal :=
  o.getD .none

/-- `same_params_for(exp_params, out_fname)`: `False` for a `None`
expectation, else compare the artifact's stored fingerprint against the
JSON round trip of the expected one (Python `==`). -/
def same_params_for (exp_params : PyVal) (out_fname : String) (fs : FS) :
    Except Err Bool :=
  match exp_params with
  | .none => .ok false
  | _ =>
    let d2j2d := jr exp_params
    match stored_params_for out_fname (-1) fs with
    | .error e => .error e
    | .ok Option.none => .ok false
    | .ok (some v) => .ok (v.beq d2j2d)

/-- The tail of `write_song` after the image stage (`i` is the state of the
`write_proc_image` call): write tags and art into the output, then persist
the overall fingerprint (the `exp_params` dict with `music_params` replaced
by `mo2` and `img_params` by the image stage's fingerprint). -/
def write_song_finish (full_out_fname : String) (entry : PyVal)
    (mo2 : Option PyVal) (i : Out (PyVal × (Nat × Nat × Nat))) : Out Unit :=
  match i.res with
  | .error e => ⟨.error e, i.fs, i.ev⟩
  | .ok (imgParams, imgData) =>
    let exp2 := expParams (optVal mo2) imgParams entry
    let t := write_tags full_out_fname entry imgData i.fs
    match t.res with
    | .error e => ⟨.error e, t.fs, i.ev ++ t.ev⟩
    | .ok _ =>
      let w := write_params_for exp2 full_out_fname 1 t.fs
      ⟨w.res, w.fs, i.ev ++ t.ev ++ w.ev⟩

/-- The rebuild path of `write_song` (`c` is the state of the
`write_converted_file` call): re-read the source fingerprint, run the image
stage, and finish. -/
def write_song_rebuild (music_fname img_fname full_out_fname : String)
    (entry : PyVal) (st : Settings) (c : Out PyVal) : Out Unit :=
  match c.res with
  | .error e => ⟨.error e, c.fs, c.ev⟩
  | .ok _ =>
    match stored_params_for music_fname (-1) c.fs with
    | .error e => ⟨.error e, c.fs, c.ev⟩
    | .ok mo2 =>
      let r := write_song_finish full_out_fname entry mo2
        (write_proc_image img_fname st.min_img_size st.out_dim c.fs)
      ⟨r.res, r.fs, c.ev ++ r.ev⟩

/-- `write_song(music_fname, img_fname, full_out_fname, entry, settings,
force)`: the top-level fingerprint gate, overwrite guard, conversion, image
processing, tag writing and fingerprint persistence, in source order. -/
def write_song (music_fname img_fname full_out_fname : String)
    (entry : PyVal) (st : Settings) (force : Bool) (fs : FS) : Out Unit :=
  match stored_params_for music_fname (-1) fs with
  | .error e => ⟨.error e, fs, []⟩
  | .ok mo =>
    match stored_params_for img_fname (-1) fs with
    | .error e => ⟨.error e, fs, []⟩
    | .ok io =>
      let exp := expParams (optVal mo) (optVal io) entry
      match same_params_for exp full_out_fname fs with
      | .error e => ⟨.error e, fs, []⟩
      | .ok true => ⟨.ok (), fs, []⟩
      | .ok false =>
        if (fs.files full_out_fname).isSome && !force then
          ⟨.error (.runtimeError ("File " ++ full_out_fname ++ " exists")),
           fs, []⟩
        else
          write_song_rebuild music_fname img_fname full_out_fname entry st
            (write_converted_file music_fname full_out_fname st fs)

/-! ## Naming (`guess_folder` / `out_fbaseroot_for`) and file search -/

/-- A character matched by the `[A-Za-z_]` class of `FBASE2FOLDER`. -/
def isRunChar (c : Char) : Bool :=
  ('A' ≤ c && c ≤ 'Z') || ('a' ≤ c && c ≤ 'z') || c = '_'

/-- Python `'0' ≤ c ≤ '9'` as matched by `[\d]` (ASCII digits). -/
def isDigitChar (c : Char) : Bool :=
  '0' ≤ c && c ≤ '9'

/-- `str.strip('_')`: remove underscores from BOTH ends. -/
def stripUnderscores (cs : List Char) : List Char :=
  ((cs.dropWhile (fun c => c = '_')).reverse.dropWhile (fun c => c = '_')).reverse

/-- `guess_folder(fbase)`: `re.match(r'([A-Za-z_]+)[\d]', fbase)` — the
maximal leading `[A-Za-z_]` run must be non-empty and be followed by a
digit; the captured run is then `.strip('_')`-ed. -/
def guess_folder (fbase : String) : Option String :=
  let cs := fbase.toList
  let run := cs.takeWhile isRunChar
  if run.isEmpty then Option.none
  else
    match cs.drop run.length with
    | [] => Option.none
    | c :: _ =>
      if isDigitChar c then some (String.mk (stripUnderscores run))
      else Option.none

/-- `f'{track_no:02d}'` for the non-negative and negative ints Python
accepts there. -/
def fmt02d (t : Int) : String :=
  if 0 ≤ t ∧ t < 10 then "0" ++ toString t else toString t

/-- `DEF_TRACK_CONFIG`. -/
def DEF_TRACK_CONFIG : List (String × PyVal) :=
  [("media", .str "Vinyl"),
   ("source", .str "Vinyl (Lossless)"),
   ("releasestatus", .str "official"),
   ("releasetype", .str "album"),
   ("script", .str "Latn")]

/-- Python truthiness of the values `full.get('disctotal')` can take. -/
def pyTruthy : PyVal → Bool
  | .none => false
  | .str s => s ≠ ""
  | .int n => n ≠ 0
  | .date .. => true
  | .list xs => ¬xs.isEmpty
  | .dict kvs => ¬kvs.isEmpty

/-- `out_fbaseroot_for(fname, entry)`: merge the entry over
`DEF_TRACK_CONFIG`, add `_disc{discnumber}` when `disctotal` is truthy and
`> 1`, and always append `_side{tracknumber:02d}`. -/
def out_fbaseroot_for (fname : String) (entry : PyVal) : Except Err String :=
  match entry with
  | .dict kvs =>
    let full := aupdate DEF_TRACK_CONFIG kvs
    let discTotal := optVal (alookup full "disctotal")
    let withDisc : Except Err String :=
      if pyTruthy discTotal then
        match discTotal with
        | .int n =>
          if n > 1 then
            match alookup full "discnumber" with
            | Option.none => .error (.keyError "discnumber")
            | some dv => .ok (fname ++ "_disc" ++ pyStr dv)
          else .ok fname
        | _ => .error .typeError
      else .ok fname
    match withDisc with
    | .error e => .error e
    | .ok base =>
      match alookup full "tracknumber" with
      | Option.none => .error (.keyError "tracknumber")
      | some (.int t) => .ok (base ++ "_side" ++ fmt02d t)
      | some _ => .error (.valueError "format")
  | _ => .error .typeError

/-- The search loop of `find_file` (`searchPaths` stays the full list for
the failure message, which interpolates the LAST candidate path tried and
joins the whole sequence with `os.pathsep`). -/
def find_file_go (fbase : String) (searchPaths : List String) (fs : FS) :
    List String → Except Err String
  | [] =>
    .error (.runtimeError
      ("Could not find " ++ pjoin (searchPaths.getLastD ".") fbase ++ " in " ++
       String.intercalate ":" searchPaths))
  | dn :: rest =>
    let fname := pjoin dn fbase
    if (fs.files fname).isSome then .ok fname
    else find_file_go fbase searchPaths fs rest

/-- `find_file(fbase, paths)`: search `['.'] + paths` in order for a regular
file named `fbase`. -/
def find_file (fbase : String) (paths : List String) (fs : FS) :
    Except Err String :=
  find_file_go fbase ("." :: paths) fs ("." :: paths)

/-- The output folder choice of `build_one`: the explicit `folder_name`
when it is a string, else (`folder_name is None`) the guess from the source
base name; a failed guess (or a non-string, non-`None` name) makes the
subsequent `os.path.join` raise `TypeError`. -/
def out_folder_for (folderNameV : PyVal) (fbase : String) : Except Err String :=
  match folderNameV with
  | .str s => .ok s
  | .none =>
    match guess_folder fbase with
    | some g => .ok g
    | Option.none => .error .typeError
  | _ => .error .typeError

/-! ## Orchestrator (`build_one`) and the `build` action's loop -/

/-- `build_one(fbase, config, settings, force)`: locate sources, derive the
output folder and base name, then hand off to `write_song`.  (`ensure_dir`
only affects directories, which the model does not track.) -/
def build_one (fbase : String) (config : PyVal) (st : Settings)
    (force : Bool) (fs : FS) : Out Unit :=
  match find_file fbase st.wav_paths fs with
  | .error e => ⟨.error e, fs, []⟩
  | .ok music_fname =>
    match config with
    | .dict kvs0 =>
      match alookup kvs0 "folder_name" with
      | Option.none => ⟨.error (.keyError "folder_name"), fs, []⟩
      | some folderNameV =>
        let kvs1 := aremove kvs0 "folder_name"
        match alookup kvs1 "img_fname" with
        | Option.none => ⟨.error (.keyError "img_fname"), fs, []⟩
        | some imgFnameV =>
          let kvs2 := aremove kvs1 "img_fname"
          match imgFnameV with
          | .str in_img_fname =>
            match find_file in_img_fname st.img_paths fs with
            | .error e => ⟨.error e, fs, []⟩
            | .ok img_fname =>
              match out_folder_for folderNameV fbase with
              | .error e => ⟨.error e, fs, []⟩
              | .ok folder_name =>
                let full_out_dir := pjoin st.out_path folder_name
                match out_fbaseroot_for folder_name (.dict kvs2) with
                | .error e => ⟨.error e, fs, []⟩
                | .ok out_fbase =>
                  let full_out_fname :=
                    pjoin full_out_dir (out_fbase ++ st.conv_ext)
                  write_song music_fname img_fname full_out_fname
                    (.dict kvs2) st force fs
          | _ => ⟨.error .typeError, fs, []⟩
    | _ => ⟨.error .typeError, fs, []⟩

/-- The `build` action of `main`: iterate the track entries in order calling
`build_one`; there is no exception handling around the loop body, so the
first failure propagates and ends the whole run. -/
def build_all (tracks : List (String × PyVal)) (st : Settings) (force : Bool)
    (fs : FS) : Out Unit :=
  match tracks with
  | [] => ⟨.ok (), fs, []⟩
  | (fbase, config) :: rest =>
    let o := build_one fbase config st force fs
    match o.res with
    | .error e => ⟨.error e, o.fs, o.ev⟩
    | .ok _ =>
      let r := build_all rest st force o.fs
      ⟨r.res, r.fs, o.ev ++ r.ev⟩

/-! ## `strip_nones` -/

mutual

/-- `strip_nones(val)`: drop `None` and empty collections recursively; an
empty result collection collapses to `None` (`Option.none` here). -/
def strip_nones : PyVal → Option PyVal
  | .none => Option.none
  | .str s => some (.str s)
  | .int n => some (.int n)
  | .date y m d => some (.date y m d)
  | .dict kvs =>
    let out := stripKvs kvs
    if out.isEmpty then Option.none else some (.dict out)
  | .list xs =>
    let out := stripList xs
    if out.isEmpty then Option.none else some (.list out)

def stripList : List PyVal → List PyVal
  | [] => []
  | x :: xs =>
    match strip_nones x with
    | some s => s :: stripList xs
    | Option.none => stripList xs

def stripKvs : List (String × PyVal) → List (String × PyVal)
  | [] => []
  | (k, v) :: kvs =>
    match strip_nones v with
    | some s => (k, s) :: stripKvs kvs
    | Option.none => stripKvs kvs

end

/-! ## Metadata provider adapter (`MBInfo`) -/

/-- A raw provider artist record (string-valued fields such as `type`,
`disambiguation`, `name`, `sort-name`), as an ordered association list. -/
abbrev Artist : Type := List (String × String)

/-- `str.lower()` (ASCII; the provider role markers compared against it are
plain ASCII). -/
def pyLower (s : String) : String :=
  String.mk (s.toList.map (fun c =>
    if 'A' ≤ c && c ≤ 'Z' then Char.ofNat (c.toNat + 32) else c))

/-- `artist.get(k)` / `artist[k]`. -/
def artGet (a : Artist) (k : String) : Option String :=
  match a with
  | [] => Option.none
  | (k', v) :: rest => if k' = k then some v else artGet rest k

/-- The parts of the MusicBrainz release JSON that `MBInfo` reads: `title`,
`date`, and the `artist-credit` list (entries lacking an `'artist'` key are
`Option.none`). -/
structure MBRec where
  title : Option String
  date : Option String
  credits : List (Option Artist)

namespace MBInfo

/-- `self._artists`: `[d['artist'] for d in credits if 'artist' in d]`. -/
def artists (rec : MBRec) : List Artist :=
  rec.credits.filterMap id

/-- Python `needle in hay` on strings (substring test). -/
def subAux (n : List Char) : List Char → Bool
  | [] => n.isEmpty
  | c :: t => n.isPrefixOf (c :: t) || subAux n t

/-- Python `needle in hay` on strings (substring test). -/
def subIn (needle hay : String) : Bool :=
  subAux needle.toList hay.toList

/-- `get_artists(type=v)`: the artists carrying that `type` field. -/
def get_artists_type (rec : MBRec) (v : String) : List Artist :=
  (artists rec).filter (fun a => artGet a "type" == some v)

/-- `self.persons`. -/
def persons (rec : MBRec) : List Artist :=
  get_artists_type rec "Person"

/-- The common shape of `composers` / `conductors`: persons whose
`disambiguation` (indexed directly, so a missing key raises `KeyError`)
contains the marker substring after lowercasing. -/
def filterRole (target : String) : List Artist → Except Err (List Artist)
  | [] => .ok []
  | p :: rest =>
    match artGet p "disambiguation" with
    | Option.none => .error (.keyError "disambiguation")
    | some s =>
      match filterRole target rest with
      | .error e => .error e
      | .ok r => .ok (if subIn target (pyLower s) then p :: r else r)

/-- `self.composers`. -/
def composers (rec : MBRec) : Except Err (List Artist) :=
  filterRole "composer" (persons rec)

/-- `self.conductors`. -/
def conductors (rec : MBRec) : Except Err (List Artist) :=
  filterRole "conductor" (persons rec)

/-- `self.orchestras`. -/
def orchestras (rec : MBRec) : List Artist :=
  get_artists_type rec "Orchestra"

/-- `self.choirs` (both the `Choir` and `Chorus` spellings). -/
def choirs (rec : MBRec) : List Artist :=
  get_artists_type rec "Choir" ++ get_artists_type rec "Chorus"

/-- `MBInfo._single(seq, default)`: empty gives the default, a singleton its
element, and anything longer an `AssertionError`. -/
def single (seq : List Artist) (dflt : Artist) : Except Err Artist :=
  match seq with
  | [] => .ok dflt
  | [a] => .ok a
  | _ => .error .assertionError

/-- `self.performers`: the persons not already classified, FOLLOWED BY the
choirs and the orchestras (the ensembles are appended to the performer
list). -/
def performers (rec : MBRec) : Except Err (List Artist) := do
  let cs ← composers rec
  let ds ← conductors rec
  let notPerformers := cs ++ ds ++ choirs rec ++ orchestras rec
  pure (((persons rec).filter (fun a => !notPerformers.contains a)) ++
        choirs rec ++ orchestras rec)

/-- The `date` property: absent or empty stays as is; otherwise split on
`'-'`, parse ints, pad a missing day with 1 (day 0 also becomes 1), and
build a `datetime.date` (whose constructor validates the parts; the model
checks ranges only, not month lengths). -/
def dateProp (rec : MBRec) : Except Err PyVal :=
  match rec.date with
  | Option.none => .ok .none
  | some s =>
    if s = "" then .ok (.str "")
    else
      match (s.splitOn "-").mapM (fun v => v.toNat?) with
      | Option.none => .error (.valueError "invalid literal for int")
      | some parts =>
        if parts.length < 2 then .ok .none
        else
          match parts with
          | [y, m] =>
            if 1 ≤ m ∧ m ≤ 12 ∧ 1 ≤ y ∧ y ≤ 9999 then .ok (.date y m 1)
            else .error (.valueError "date out of range")
          | [y, m, d] =>
            let d' := if d = 0 then 1 else d
            if 1 ≤ m ∧ m ≤ 12 ∧ d' ≤ 31 ∧ 1 ≤ y ∧ y ≤ 9999 then
              .ok (.date y m d')
            else .error (.valueError "date out of range")
          | _ => .error (.valueError "too many values to unpack")

/-- The `year` property: `None` propagates; a date yields its year; the
empty-string date raises (`''.year`). -/
def yearProp (rec : MBRec) : Except Err PyVal :=
  match dateProp rec with
  | .error e => .error e
  | .ok .none => .ok .none
  | .ok (.date y _ _) => .ok (.int (y : Int))
  | .ok _ => .error .attributeError

/-- An optional provider string as the corresponding Python value. -/
def strOpt (o : Option String) : PyVal :=
  match o with
  | some s => .str s
  | Option.none => .none

/-- `self._get_value('title')` (`.strip()` of the raw value). -/
def titleVal (rec : MBRec) : PyVal :=
  strOpt (rec.title.map String.trim)

/-- `[p['name'] for p in performers]` (direct indexing: `KeyError` when a
performer lacks a name). -/
def perfNames : List Artist → Except Err (List String)
  | [] => .ok []
  | p :: rest =>
    match artGet p "name" with
    | Option.none => .error (.keyError "name")
    | some n =>
      match perfNames rest with
      | .error e => .error e
      | .ok r => .ok (n :: r)

/-- The association list built by the `as_config` dict literal, before
`strip_nones` (the composer slot is `composers[0] if len(composers) else
{}`). -/
def as_config_kvs (rec : MBRec) (cs : List Artist) (con orch : Artist)
    (pnames : List String) (dv yv : PyVal) : List (String × PyVal) :=
  [("album", titleVal rec),
   ("artist", strOpt (artGet (cs.headD []) "name")),
   ("artistsort", strOpt (artGet (cs.headD []) "sort-name")),
   ("albumartist", strOpt (artGet (cs.headD []) "name")),
   ("albumartistsort", strOpt (artGet (cs.headD []) "sort-name")),
   ("composer", .list (cs.map (fun c => strOpt (artGet c "name")))),
   ("conductor", strOpt (artGet con "name")),
   ("orchestra", strOpt (artGet orch "name")),
   ("performer", .list (pnames.map .str)),
   ("title", titleVal rec),
   ("originaldate", dv),
   ("originalyear", yv),
   ("period", .none),
   ("details", .none)]

/-- `MBInfo.as_config()`: normalize to the canonical track-metadata shape.
NOTE the asymmetry faithfully kept from the source: the composer is taken as
`composers[0] if len(composers) else {}` (no assertion), while the conductor
and orchestra go through `_single` (assertion on more than one). -/
def as_config (rec : MBRec) : Except Err (Option PyVal) := do
  let cs ← composers rec
  let ds ← conductors rec
  let con ← single ds []
  let orch ← single (orchestras rec) []
  let ps ← performers rec
  let pnames ← perfNames ps
  let dv ← dateProp rec
  let yv ← yearProp rec
  pure (strip_nones (.dict (as_config_kvs rec cs con orch pnames dv yv)))

/-- Field access on a normalized configuration
(`as_config` result). -/
def cfgGet (r : Except Err (Option PyVal)) (k : String) : Option PyVal :=
  match r with
  | .ok (some (.dict kvs)) => alookup kvs k
  | _ => Option.none

end MBInfo

/-! ## Concrete example inputs (used to witness the theorems below) -/

/-- Example settings: one audio search dir, one image search dir, an output
root, a conversion cache dir, mp3 output, one transform parameter, the
default minimum image size, 1024-pixel target art. -/
def exSettings : Settings :=
  ⟨["w"], ["g"], "out", "cv", ".mp3", [.int 9], (640, 480), 1024⟩

/-- Example filesystem: a source audio file and a cover image, no sidecars,
nothing built yet. -/
def exFS : FS :=
  ⟨100,
   fun p => if p = "m.wav" then some ⟨0, .bytes 1⟩
            else if p = "c.jpg" then some ⟨0, .img 1000 800 7⟩
            else Option.none,
   fun _ => Option.none⟩

/-- Example track entry (post `folder_name`/`img_fname` removal). -/
def exEntry : PyVal :=
  .dict [("title", .str "T"), ("tracknumber", .int 1),
         ("originaldate", .date 1994 4 1)]

/-- Example filesystem with a pre-existing output artifact (a fingerprint
mismatch candidate for the overwrite guard). -/
def exFSConflict : FS :=
  ⟨100,
   fun p => if p = "m.wav" then some ⟨0, .bytes 1⟩
            else if p = "c.jpg" then some ⟨0, .img 1000 800 7⟩
            else if p = "o.mp3" then some ⟨50, .bytes 9⟩
            else Option.none,
   fun _ => Option.none⟩

/-- Example filesystem for the store-read contract: `f` has a sidecar whose
mtime EQUALS the tracked file's; `g` has a sidecar strictly OLDER than the
tracked file. -/
def exFSStore : FS :=
  ⟨0,
   fun p => if p = "f" then some ⟨10, .bytes 0⟩
            else if p = "g" then some ⟨10, .bytes 1⟩
            else Option.none,
   fun p => if p = "f" then some ⟨10, .int 7⟩
            else if p = "g" then some ⟨9, .int 8⟩
            else Option.none⟩

/-- Example filesystem with the same base name both in the working directory
and in a configured search path. -/
def exFSShadow : FS :=
  ⟨0,
   fun p => if p = "./x" then some ⟨0, .bytes 1⟩
            else if p = "w/x" then some ⟨0, .bytes 2⟩
            else Option.none,
   fun _ => Option.none⟩

/-- Example filesystem with an up-to-date converted artifact in the cache:
source fingerprint stored and fresh, artifact fingerprint equal to the
expected composite fingerprint. -/
def exFSConv : FS :=
  ⟨200,
   fun p => if p = "m.wav" then some ⟨0, .bytes 1⟩
            else if p = "cv/m.mp3" then some ⟨5, .conv (.bytes 1) [.int 9]⟩
            else Option.none,
   fun p => if p = "m.wav" then some ⟨1, hashParams (.bytes 1)⟩
            else if p = "cv/m.mp3" then
              some ⟨6, convParams (hashParams (.bytes 1)) [.int 9]⟩
            else Option.none⟩

/-- Example track entry as authored in the configuration (with the two
build-control fields still present). -/
def exCfg : PyVal :=
  .dict [("folder_name", .str "alb"), ("img_fname", .str "c.jpg"),
         ("title", .str "T"), ("tracknumber", .int 1)]

/-- Example filesystem for whole-track builds: the source audio under the
configured audio search path, the cover under the image search path. -/
def exFS9 : FS :=
  ⟨100,
   fun p => if p = "w/m.wav" then some ⟨0, .bytes 1⟩
            else if p = "g/c.jpg" then some ⟨0, .img 1000 800 7⟩
            else Option.none,
   fun _ => Option.none⟩

/-- Example filesystem holding a 700x10 source image: width above the
default minimum width (640), height far below the default minimum height
(480). -/
def exFSLowres : FS :=
  ⟨0,
   fun p => if p = "c.jpg" then some ⟨0, .img 700 10 7⟩ else Option.none,
   fun _ => Option.none⟩

/-- The folder-guess as CLAIMED by the spec sentence: the leading
`[A-Za-z_]` run before the first digit with the TRAILING underscores
stripped (the code strips both ends). -/
def guess_folder_claimed (fbase : String) : Option String :=
  let run := fbase.toList.takeWhile isRunChar
  match fbase.toList.drop run.length with
  | c :: _ =>
    if ¬run.isEmpty ∧ isDigitChar c then
      some (String.mk ((run.reverse.dropWhile (fun x => x = '_')).reverse))
    else Option.none
  | [] => Option.none

/-- Example provider artists: a composer, a second composer, a conductor,
an unaffiliated performer, an orchestra and a choir. -/
def exArtComposer : Artist :=
  [("type", "Person"), ("disambiguation", "composer"), ("name", "Comp"),
   ("sort-name", "Comp, A")]

/-- Second composer (see `exArtComposer`). -/
def exArtComposer2 : Artist :=
  [("type", "Person"), ("disambiguation", "composer"), ("name", "Comp2")]

/-- A conductor (see `exArtComposer`). -/
def exArtConductor : Artist :=
  [("type", "Person"), ("disambiguation", "conductor"), ("name", "Cond")]

/-- An unaffiliated performer (see `exArtComposer`). -/
def exArtPerf : Artist :=
  [("type", "Person"), ("disambiguation", "violinist"), ("name", "Perf")]

/-- An orchestra (see `exArtComposer`). -/
def exArtOrch : Artist :=
  [("type", "Orchestra"), ("name", "Orch")]

/-- A choir (see `exArtComposer`). -/
def exArtChoir : Artist :=
  [("type", "Choir"), ("name", "Choir")]

/-- Example release record with TWO composers and one conductor. -/
def exRec2 : MBRec :=
  ⟨Option.none, Option.none,
   [some exArtComposer, some exArtComposer2, some exArtConductor]⟩

/-- Example release record with exactly one composer, one conductor, one
orchestra, one choir and one unaffiliated performer. -/
def exRec5 : MBRec :=
  ⟨Option.none, Option.none,
   [some exArtComposer, some exArtConductor, some exArtOrch,
    some exArtChoir, some exArtPerf]⟩

/-! ## Basic lemmas about the value model and the filesystem -/

theorem PyVal.beq_eq_aux :
    ∀ n : Nat, ∀ a b : PyVal, sizeOf a < n → a.beq b = true → a = b := by
  intro n
  induction n with
  | zero => intro a b h; omega
  | succ n ih =>
    intro a b hsz hbeq
    cases a <;> cases b <;>
      (try (simp [PyVal.beq] at hbeq)) <;> (try simp [hbeq])
    case list.list xs ys =>
      cases xs <;> cases ys <;> (try (simp [PyVal.beq] at hbeq)) <;> (try rfl)
      case cons.cons x xs y ys =>
        simp at hsz
        have e1 := ih x y (by omega) hbeq.1
        have e2 := ih (.list xs) (.list ys) (by simp; omega) hbeq.2
        simp at e2
        simp [e1, e2]
    case dict.dict kvs lws =>
      cases kvs <;> cases lws <;> (try (simp [PyVal.beq] at hbeq)) <;> (try rfl)
      case cons.cons kv kvs lw lws =>
        match kv, lw with
        | (k, v), (l, w) =>
          simp [PyVal.beq] at hbeq
          simp at hsz
          obtain ⟨⟨hkl, hvw⟩, hrest⟩ := hbeq
          have e1 := ih v w (by omega) hvw
          have e2 := ih (.dict kvs) (.dict lws) (by simp; omega) hrest
          simp at e2
          simp [hkl, e1, e2]

/-- Python `==` agrees with equality on the value model. -/
theorem PyVal.beq_eq {a b : PyVal} (h : a.beq b = true) : a = b :=
  PyVal.beq_eq_aux (sizeOf a + 1) a b (Nat.lt_succ_self _) h

theorem FS.writeFile_files_self (fs : FS) (p : String) (c : FContent) :
    (fs.writeFile p c).files p = some ⟨fs.clock, c⟩ := by
  simp [FS.writeFile]

theorem FS.writeFile_files_ne (fs : FS) {r p : String} (c : FContent)
    (h : r ≠ p) : (fs.writeFile p c).files r = fs.files r := by
  simp [FS.writeFile, h]

theorem FS.writeFile_sides (fs : FS) (p : String) (c : FContent) :
    (fs.writeFile p c).sides = fs.sides := rfl

theorem FS.writeSide_files (fs : FS) (p : String) (v : PyVal) :
    (fs.writeSide p v).files = fs.files := rfl

theorem FS.writeSide_sides_self (fs : FS) (p : String) (v : PyVal) :
    (fs.writeSide p v).sides p = some ⟨fs.clock, v⟩ := by
  simp [FS.writeSide]

theorem FS.writeSide_sides_ne (fs : FS) {r p : String} (v : PyVal)
    (h : r ≠ p) : (fs.writeSide p v).sides r = fs.sides r := by
  simp [FS.writeSide, h]

theorem FS.utimeSide_files (fs : FS) (p : String) (t : Int) :
    (fs.utimeSide p t).files = fs.files := rfl

theorem FS.utimeSide_sides_self (fs : FS) (p : String) (t : Int) :
    (fs.utimeSide p t).sides p = (fs.sides p).map (fun s => ⟨t, s.v⟩) := by
  simp [FS.utimeSide]

theorem FS.utimeSide_sides_ne (fs : FS) {r p : String} (t : Int)
    (h : r ≠ p) : (fs.utimeSide p t).sides r = fs.sides r := by
  simp [FS.utimeSide, h]

/-- `stored_params_for` only looks at the file and sidecar entries of its
path: filesystems agreeing there agree on the read. -/
theorem stored_congr {fs fs' : FS} (p : String) (t : Int)
    (hf : fs'.files p = fs.files p) (hs : fs'.sides p = fs.sides p) :
    stored_params_for p t fs' = stored_params_for p t fs := by
  simp [stored_params_for, hf, hs]

/-- A successful non-`None` read exposes the sidecar and the tracked file. -/
theorem stored_eq_some {p : String} {t : Int} {fs : FS} {v : PyVal}
    (h : stored_params_for p t fs = .ok (some v)) :
    ∃ sd fd, fs.sides p = some sd ∧ fs.files p = some fd ∧
      ¬(sd.mtime < fd.mtime + t) ∧ sd.v = v := by
  unfold stored_params_for at h
  rcases hs : fs.sides p with _ | sd <;> rw [hs] at h
  · simp at h
  · rcases hf : fs.files p with _ | fd <;> rw [hf] at h
    · simp at h
    · by_cases hm : sd.mtime < fd.mtime + t
      · simp [hm] at h
      · simp [hm] at h
        exact ⟨sd, fd, rfl, rfl, hm, h⟩

/-- `jr` fixes the leaf fingerprints `{'md5': ..}`. -/
theorem jr_hashParams (c : FContent) : jr (hashParams c) = hashParams c := by
  simp [hashParams, jr, jrKvs, sortKeys, insortKey]

/-- Reading back right after `write_params_for` (tdelta 1) yields the JSON
round trip of what was written, and the write succeeds, provided the
protected file exists. -/
theorem write_params_spec {p : String} {fs : FS} {fd : FData} (v : PyVal)
    (hf : fs.files p = some fd) :
    write_params_for v p 1 fs =
      ⟨.ok (), (fs.writeSide p (jr v)).utimeSide p (fd.mtime + 1),
       [.writeParams p]⟩ := by
  simp [write_params_for, hf]

/-- The state after a successful `write_params_for v p 1`: reading `p`'s
sidecar back gives `jr v`; nothing else changed. -/
theorem write_params_post {p : String} {fs : FS} {fd : FData} (v : PyVal)
    (hf : fs.files p = some fd) :
    (write_params_for v p 1 fs).res = .ok () ∧
    (write_params_for v p 1 fs).fs.files = fs.files ∧
    (∀ r, r ≠ p → (write_params_for v p 1 fs).fs.sides r = fs.sides r) ∧
    stored_params_for p (-1) (write_params_for v p 1 fs).fs =
      .ok (some (jr v)) := by
  rw [write_params_spec v hf]
  refine ⟨rfl, rfl, ?_, ?_⟩
  · intro r hr
    rw [FS.utimeSide_sides_ne _ _ hr, FS.writeSide_sides_ne _ _ hr]
  · have hs : ((fs.writeSide p (jr v)).utimeSide p (fd.mtime + 1)).sides p =
        some ⟨fd.mtime + 1, jr v⟩ := by
      rw [FS.utimeSide_sides_self, FS.writeSide_sides_self]
      rfl
    have hf' : ((fs.writeSide p (jr v)).utimeSide p (fd.mtime + 1)).files p =
        some fd := by
      rw [FS.utimeSide_files, FS.writeSide_files]
      exact hf
    simp [stored_params_for, hs, hf']
    omega

/-- The state after a successful `write_hash_for_fname`: the fresh leaf
fingerprint is returned and reads back from the store; nothing else
changed. -/
theorem write_hash_post {p : String} {fs : FS} {fd : FData}
    (hf : fs.files p = some fd) :
    (write_hash_for_fname p fs).res = .ok (hashParams fd.data) ∧
    (write_hash_for_fname p fs).fs.files = fs.files ∧
    (∀ r, r ≠ p → (write_hash_for_fname p fs).fs.sides r = fs.sides r) ∧
    stored_params_for p (-1) (write_hash_for_fname p fs).fs =
      .ok (some (hashParams fd.data)) := by
  have hw := write_params_post (hashParams fd.data) hf
  simp only [write_hash_for_fname, hf]
  refine ⟨?_, hw.2.1, fun r hr => hw.2.2.1 r hr, ?_⟩
  · rw [hw.1]
    rfl
  · rw [hw.2.2.2, jr_hashParams]

/-- Postcondition of a successful `convert_file_rest` from a state `st0` in
which the source's fingerprint reads as `inpv`: the result is the composite
fingerprint; only the artifact's file and sidecar changed; the artifact's
stored fingerprint is now the composite fingerprint or its JSON round trip;
and the artifact file exists. -/
theorem convert_rest_post {inf outf : String} {sox : List PyVal}
    {st0 : FS} {ev0 : List Event} {inpv pv : PyVal}
    (hin : stored_params_for inf (-1) st0 = .ok (some inpv))
    (hok : (convert_file_rest inf outf sox ⟨.ok inpv, st0, ev0⟩).res = .ok pv) :
    pv = convParams inpv sox ∧
    (∀ r, r ≠ outf →
      (convert_file_rest inf outf sox ⟨.ok inpv, st0, ev0⟩).fs.files r =
        st0.files r) ∧
    (∀ r, r ≠ outf →
      (convert_file_rest inf outf sox ⟨.ok inpv, st0, ev0⟩).fs.sides r =
        st0.sides r) ∧
    (∃ spv, stored_params_for outf (-1)
        (convert_file_rest inf outf sox ⟨.ok inpv, st0, ev0⟩).fs =
        .ok (some spv) ∧ (spv = pv ∨ spv = jr pv)) ∧
    (∃ fdo, (convert_file_rest inf outf sox ⟨.ok inpv, st0, ev0⟩).fs.files outf =
      some fdo) := by
  rcases hso : stored_params_for outf (-1) st0 with e | so
  · simp [convert_file_rest, hso] at hok
  · have hskip : ∀ v, so = some v → v.beq (convParams inpv sox) = true →
        convert_file_rest inf outf sox ⟨.ok inpv, st0, ev0⟩ =
          ⟨.ok (convParams inpv sox), st0, ev0⟩ := by
      intro v hv hb
      simp [convert_file_rest, hso, hv, hb]
    have hconv : (so = Option.none ∨
          ∃ v, so = some v ∧ v.beq (convParams inpv sox) = false) →
        ∀ fdin, st0.files inf = some fdin →
        convert_file_rest inf outf sox ⟨.ok inpv, st0, ev0⟩ =
          ⟨.ok (convParams inpv sox),
           ((st0.writeFile outf (.conv fdin.data sox)).writeSide outf
               (jr (convParams inpv sox))).utimeSide outf (st0.clock + 1),
           ev0 ++ [.sox inf (sox.map pyStr) outf] ++ [.writeParams outf]⟩ := by
      intro hcase fdin hfin
      have hws := write_params_spec
        (convParams inpv sox)
        (FS.writeFile_files_self st0 outf (.conv fdin.data sox))
      rcases hcase with rfl | ⟨v, rfl, hb⟩
      · simp [convert_file_rest, hso, hfin, hws, Except.map]
      · simp [convert_file_rest, hso, hb, hfin, hws, Except.map]
    -- common facts for the conversion branch
    have hconvPost : ∀ fdin, st0.files inf = some fdin →
        stored_params_for outf (-1)
          (((st0.writeFile outf (.conv fdin.data sox)).writeSide outf
              (jr (convParams inpv sox))).utimeSide outf (st0.clock + 1)) =
          .ok (some (jr (convParams inpv sox))) := by
      intro fdin hfin
      have hp := write_params_post
        (convParams inpv sox)
        (FS.writeFile_files_self st0 outf (.conv fdin.data sox))
      have hws := write_params_spec
        (convParams inpv sox)
        (FS.writeFile_files_self st0 outf (.conv fdin.data sox))
      rw [hws] at hp
      simpa using hp.2.2.2
    rcases so with _ | v
    · -- no stored artifact fingerprint: convert
      obtain ⟨sd, fdin, hsd, hfin, hmt, hsv⟩ := stored_eq_some hin
      have heq := hconv (Or.inl rfl) fdin hfin
      rw [heq] at hok ⊢
      have hpv : pv = convParams inpv sox := by
        have := hok.symm
        simpa using this
      subst hpv
      refine ⟨rfl, ?_, ?_, ⟨jr (convParams inpv sox), hconvPost fdin hfin, Or.inr rfl⟩, ?_⟩
      · intro r hr
        show (((st0.writeFile outf _).writeSide outf _).utimeSide outf _).files r = _
        rw [FS.utimeSide_files, FS.writeSide_files, FS.writeFile_files_ne _ _ hr]
      · intro r hr
        show (((st0.writeFile outf _).writeSide outf _).utimeSide outf _).sides r = _
        rw [FS.utimeSide_sides_ne _ _ hr, FS.writeSide_sides_ne _ _ hr,
          FS.writeFile_sides]
      · refine ⟨⟨st0.clock, .conv fdin.data sox⟩, ?_⟩
        show (((st0.writeFile outf _).writeSide outf _).utimeSide outf _).files outf = _
        rw [FS.utimeSide_files, FS.writeSide_files]
        exact FS.writeFile_files_self st0 outf (.conv fdin.data sox)
    · -- a stored artifact fingerprint exists: compare
      by_cases hb : v.beq (convParams inpv sox) = true
      · -- match: skip, no writes at all
        have hv := PyVal.beq_eq hb
        have heq := hskip v rfl hb
        rw [heq] at hok ⊢
        have hpv : pv = convParams inpv sox := by
          have := hok.symm
          simpa using this
        subst hpv
        obtain ⟨sdo, fdo, hsdo, hfdo, hmto, hsvo⟩ := stored_eq_some hso
        exact ⟨rfl, fun r _ => rfl, fun r _ => rfl,
          ⟨v, by rw [show (⟨.ok (convParams inpv sox), st0, ev0⟩ : Out PyVal).fs = st0 from rfl, hso, hv], Or.inl hv⟩,
          ⟨fdo, hfdo⟩⟩
      · -- mismatch: convert
        obtain ⟨sd, fdin, hsd, hfin, hmt, hsv⟩ := stored_eq_some hin
        have heq := hconv (Or.inr ⟨v, rfl, by simpa using hb⟩) fdin hfin
        rw [heq] at hok ⊢
        have hpv : pv = convParams inpv sox := by
          have := hok.symm
          simpa using this
        subst hpv
        refine ⟨rfl, ?_, ?_, ⟨jr (convParams inpv sox), hconvPost fdin hfin, Or.inr rfl⟩, ?_⟩
        · intro r hr
          show (((st0.writeFile outf _).writeSide outf _).utimeSide outf _).files r = _
          rw [FS.utimeSide_files, FS.writeSide_files, FS.writeFile_files_ne _ _ hr]
        · intro r hr
          show (((st0.writeFile outf _).writeSide outf _).utimeSide outf _).sides r = _
          rw [FS.utimeSide_sides_ne _ _ hr, FS.writeSide_sides_ne _ _ hr,
            FS.writeFile_sides]
        · refine ⟨⟨st0.clock, .conv fdin.data sox⟩, ?_⟩
          show (((st0.writeFile outf _).writeSide outf _).utimeSide outf _).files outf = _
          rw [FS.utimeSide_files, FS.writeSide_files]
          exact FS.writeFile_files_self st0 outf (.conv fdin.data sox)

/-- Postcondition of a successful `convert_file`: only the artifact's file
and sidecar and the source's sidecar may change; the source's fingerprint
reads back and forms the returned composite fingerprint; the artifact's
stored fingerprint is the composite fingerprint or its JSON round trip; the
artifact file exists. -/
theorem convert_post {inf outf : String} {sox : List PyVal} {fs : FS}
    {pv : PyVal} (hne : inf ≠ outf)
    (hok : (convert_file inf outf sox fs).res = .ok pv) :
    (∀ r, r ≠ outf → (convert_file inf outf sox fs).fs.files r = fs.files r) ∧
    (∀ r, r ≠ inf → r ≠ outf →
      (convert_file inf outf sox fs).fs.sides r = fs.sides r) ∧
    (∃ inpv, stored_params_for inf (-1) (convert_file inf outf sox fs).fs =
        .ok (some inpv) ∧ pv = convParams inpv sox ∧
        (stored_params_for inf (-1) fs = .ok (some inpv) ∨ jr inpv = inpv)) ∧
    (∃ spv, stored_params_for outf (-1) (convert_file inf outf sox fs).fs =
        .ok (some spv) ∧ (spv = pv ∨ spv = jr pv)) ∧
    (∃ fdo, (convert_file inf outf sox fs).fs.files outf = some fdo) := by
  rcases hmo : stored_params_for inf (-1) fs with e | mo
  · simp [convert_file, hmo] at hok
  · rcases mo with _ | v
    · -- stale/absent source sidecar: hash refresh first
      rcases hf : fs.files inf with _ | fd
      · simp [convert_file, hmo, convert_file_rest, write_hash_for_fname,
          hf] at hok
      · have hh := write_hash_post hf
        have heq : convert_file inf outf sox fs =
            convert_file_rest inf outf sox (write_hash_for_fname inf fs) := by
          simp [convert_file, hmo]
        have hsplit : write_hash_for_fname inf fs =
            ⟨.ok (hashParams fd.data), (write_hash_for_fname inf fs).fs,
             (write_hash_for_fname inf fs).ev⟩ := by
          rw [← hh.1]
        rw [heq, hsplit] at hok ⊢
        have post := convert_rest_post hh.2.2.2 hok
        refine ⟨?_, ?_, ?_, post.2.2.2.1, post.2.2.2.2⟩
        · intro r hr
          rw [post.2.1 r hr, hh.2.1]
        · intro r hri hro
          rw [post.2.2.1 r hro, hh.2.2.1 r hri]
        · refine ⟨hashParams fd.data, ?_, post.1, Or.inr (jr_hashParams _)⟩
          have hcg := stored_congr inf (-1)
            (post.2.1 inf hne) (post.2.2.1 inf hne)
          rw [hcg]
          exact hh.2.2.2
    · -- fresh source sidecar: its value is used directly
      have heq : convert_file inf outf sox fs =
          convert_file_rest inf outf sox ⟨.ok v, fs, []⟩ := by
        simp [convert_file, hmo]
      rw [heq] at hok ⊢
      have post := convert_rest_post hmo hok
      refine ⟨post.2.1, fun r _ hro => post.2.2.1 r hro, ?_,
        post.2.2.2.1, post.2.2.2.2⟩
      refine ⟨v, ?_, post.1, Or.inl rfl⟩
      have hcg := stored_congr inf (-1)
        (post.2.1 inf hne) (post.2.2.1 inf hne)
      rw [hcg, hmo]

/-- Postcondition of a successful `write_converted_file`: only the
destination file, the shared cache artifact and the two sidecars (source,
cache artifact) may change; the source's fingerprint reads back; the
destination file exists. -/
theorem wcf_post {inf out : String} {st : Settings} {fs : FS} {pv : PyVal}
    (h1 : inf ≠ convName inf st) (h3 : inf ≠ out)
    (hok : (write_converted_file inf out st fs).res = .ok pv) :
    (∀ r, r ≠ out → r ≠ convName inf st →
      (write_converted_file inf out st fs).fs.files r = fs.files r) ∧
    (∀ r, r ≠ inf → r ≠ convName inf st →
      (write_converted_file inf out st fs).fs.sides r = fs.sides r) ∧
    (∃ m, stored_params_for inf (-1) (write_converted_file inf out st fs).fs =
      .ok (some m)) ∧
    (∃ fdo, (write_converted_file inf out st fs).fs.files out = some fdo) := by
  rcases hc : (convert_file inf (convName inf st) st.sox_params fs).res
    with e | p
  · simp [write_converted_file, hc] at hok
  · have post := convert_post h1 hc
    obtain ⟨F, S, ⟨inpv, hsin, hpv, _⟩, ⟨spv, hsout, _⟩, ⟨fdo, hfo⟩⟩ := post
    have heq : write_converted_file inf out st fs =
        ⟨.ok p, (convert_file inf (convName inf st) st.sox_params fs).fs.writeFile
            out fdo.data,
         (convert_file inf (convName inf st) st.sox_params fs).ev ++
           [.copy (convName inf st) out]⟩ := by
      simp [write_converted_file, hc, hfo]
    rw [heq] at hok ⊢
    refine ⟨?_, ?_, ⟨inpv, ?_⟩, ?_⟩
    · intro r hro hrc
      show ((convert_file inf (convName inf st) st.sox_params fs).fs.writeFile
        out fdo.data).files r = fs.files r
      rw [FS.writeFile_files_ne _ _ hro, F r hrc]
    · intro r hri hrc
      show ((convert_file inf (convName inf st) st.sox_params fs).fs.writeFile
        out fdo.data).sides r = fs.sides r
      rw [FS.writeFile_sides, S r hri hrc]
    · have hcg := stored_congr inf (-1)
        (FS.writeFile_files_ne
          (convert_file inf (convName inf st) st.sox_params fs).fs fdo.data h3)
        (by rw [FS.writeFile_sides])
      rw [hcg]
      exact hsin
    · exact ⟨_, FS.writeFile_files_self _ out fdo.data⟩

/-- Postcondition of a successful `write_proc_image`: regular files are
untouched, only the source image's sidecar may change, and the returned
fingerprint reads back from the store. -/
theorem wpi_post {img : String} {mins : Nat × Nat} {dim : Nat} {fs : FS}
    {ip : PyVal} {data : Nat × Nat × Nat}
    (hok : (write_proc_image img mins dim fs).res = .ok (ip, data)) :
    (write_proc_image img mins dim fs).fs.files = fs.files ∧
    (∀ r, r ≠ img → (write_proc_image img mins dim fs).fs.sides r = fs.sides r) ∧
    stored_params_for img (-1) (write_proc_image img mins dim fs).fs =
      .ok (some ip) := by
  rcases hmo : stored_params_for img (-1) fs with e | mo
  · simp [write_proc_image, hmo] at hok
  · rcases mo with _ | v
    · -- stale/absent sidecar: hash refresh, then open the (existing) file
      rcases hf : fs.files img with _ | fd
      · simp [write_proc_image, hmo, write_hash_for_fname, hf] at hok
      · have hh := write_hash_post hf
        obtain ⟨mt, dat⟩ := fd
        cases dat with
        | img w h id =>
          by_cases hgate : tupLt (w, h) mins = true
          · simp [write_proc_image, hmo, hh.1, hh.2.1, hf, hgate] at hok
          · have heq : write_proc_image img mins dim fs =
                ⟨.ok (hashParams (.img w h id),
                   ((resize_img (w, h) dim).1, (resize_img (w, h) dim).2, id)),
                 (write_hash_for_fname img fs).fs,
                 (write_hash_for_fname img fs).ev⟩ := by
              simp [write_proc_image, hmo, hh.1, hh.2.1, hf, hgate]
            rw [heq] at hok ⊢
            have hpair := hok.symm
            simp at hpair
            have hip : ip = hashParams (.img w h id) := hpair.1
            refine ⟨hh.2.1, fun r hr => hh.2.2.1 r hr, ?_⟩
            rw [hip]
            exact hh.2.2.2
        | bytes id => simp [write_proc_image, hmo, hh.1, hh.2.1, hf] at hok
        | conv src sp => simp [write_proc_image, hmo, hh.1, hh.2.1, hf] at hok
        | tagged orig e a => simp [write_proc_image, hmo, hh.1, hh.2.1, hf] at hok
    · -- fresh sidecar: its value is the fingerprint
      obtain ⟨sd, fd, hsd, hf, hmt, hsv⟩ := stored_eq_some hmo
      obtain ⟨mt, dat⟩ := fd
      cases dat with
      | img w h id =>
        by_cases hgate : tupLt (w, h) mins = true
        · simp [write_proc_image, hmo, hf, hgate] at hok
        · have heq : write_proc_image img mins dim fs =
              ⟨.ok (v,
                 ((resize_img (w, h) dim).1, (resize_img (w, h) dim).2, id)),
               fs, []⟩ := by
            simp [write_proc_image, hmo, hf, hgate]
          rw [heq] at hok ⊢
          have hpair := hok.symm
          simp at hpair
          have hip : ip = v := hpair.1
          refine ⟨rfl, fun r _ => rfl, ?_⟩
          rw [hip]
          exact hmo
      | bytes id => simp [write_proc_image, hmo, hf] at hok
      | conv src sp => simp [write_proc_image, hmo, hf] at hok
      | tagged orig e a => simp [write_proc_image, hmo, hf] at hok

/-- Postcondition of a successful `write_tags`: sidecars untouched; only the
output file is rewritten, and it exists afterwards. -/
theorem wt_post {out : String} {entry : PyVal} {data : Nat × Nat × Nat}
    {fs : FS} (hok : (write_tags out entry data fs).res = .ok ()) :
    (write_tags out entry data fs).fs.sides = fs.sides ∧
    (∀ r, r ≠ out → (write_tags out entry data fs).fs.files r = fs.files r) ∧
    (∃ fd, (write_tags out entry data fs).fs.files out = some fd) := by
  cases entry with
  | dict kvs =>
    by_cases hcond : ((alookup kvs "details").isSome ||
        (alookup kvs "title").isSome) = true
    · rcases hfo : fs.files out with _ | fd
      · simp [write_tags, hcond, hfo] at hok
      · have heq : write_tags out (.dict kvs) data fs =
            ⟨.ok (), fs.writeFile out (.tagged fd.data (.dict kvs) data),
             [.tags out]⟩ := by
          simp [write_tags, hcond, hfo]
        rw [heq]
        exact ⟨FS.writeFile_sides fs out _,
          fun r hr => FS.writeFile_files_ne fs _ hr,
          ⟨_, FS.writeFile_files_self fs out _⟩⟩
    · simp [write_tags, hcond] at hok
  | none => simp [write_tags] at hok
  | str s => simp [write_tags] at hok
  | int n => simp [write_tags] at hok
  | date y m d => simp [write_tags] at hok
  | list xs => simp [write_tags] at hok

/-- Postcondition of a successful `write_song_finish`: only the output file
and its sidecar changed, and the overall fingerprint (built from `mo2`, the
image fingerprint and the entry) reads back from the output's sidecar. -/
theorem finish_post {out : String} {entry : PyVal} {mo2 : Option PyVal}
    {st1 : FS} {ev1 : List Event} {ip : PyVal} {data : Nat × Nat × Nat}
    (hok : (write_song_finish out entry mo2
      ⟨.ok (ip, data), st1, ev1⟩).res = .ok ()) :
    (∀ r, r ≠ out → (write_song_finish out entry mo2
      ⟨.ok (ip, data), st1, ev1⟩).fs.files r = st1.files r) ∧
    (∀ r, r ≠ out → (write_song_finish out entry mo2
      ⟨.ok (ip, data), st1, ev1⟩).fs.sides r = st1.sides r) ∧
    stored_params_for out (-1) (write_song_finish out entry mo2
      ⟨.ok (ip, data), st1, ev1⟩).fs =
      .ok (some (jr (expParams (optVal mo2) ip entry))) := by
  rcases ht : (write_tags out entry data st1).res with e | u
  · simp [write_song_finish, ht] at hok
  · have tpost := wt_post ht
    obtain ⟨fdt, hft⟩ := tpost.2.2
    have hwp := write_params_post (expParams (optVal mo2) ip entry) hft
    have heq : write_song_finish out entry mo2 ⟨.ok (ip, data), st1, ev1⟩ =
        ⟨(write_params_for (expParams (optVal mo2) ip entry) out 1
            (write_tags out entry data st1).fs).res,
         (write_params_for (expParams (optVal mo2) ip entry) out 1
            (write_tags out entry data st1).fs).fs,
         ev1 ++ (write_tags out entry data st1).ev ++
           (write_params_for (expParams (optVal mo2) ip entry) out 1
            (write_tags out entry data st1).fs).ev⟩ := by
      simp [write_song_finish, ht]
    rw [heq]
    refine ⟨?_, ?_, hwp.2.2.2⟩
    · intro r hr
      show (write_params_for (expParams (optVal mo2) ip entry) out 1
        (write_tags out entry data st1).fs).fs.files r = st1.files r
      rw [hwp.2.1]
      exact tpost.2.1 r hr
    · intro r hr
      show (write_params_for (expParams (optVal mo2) ip entry) out 1
        (write_tags out entry data st1).fs).fs.sides r = st1.sides r
      rw [hwp.2.2.1 r hr, tpost.1]

/-- Postcondition of a successful `write_song` on distinct paths: in the
final state, recomputing the expected overall fingerprint from the stored
source fingerprints and the entry finds it equal to the output's stored
fingerprint (the first conjunct of the top-level gate holds again). -/
theorem write_song_post {music img out : String} {entry : PyVal}
    {st : Settings} {force : Bool} {fs : FS}
    (d1 : music ≠ img) (d2 : music ≠ out) (d3 : img ≠ out)
    (d4 : music ≠ convName music st)
    (hok : (write_song music img out entry st force fs).res = .ok ()) :
    ∃ mo io,
      stored_params_for music (-1)
        (write_song music img out entry st force fs).fs = .ok mo ∧
      stored_params_for img (-1)
        (write_song music img out entry st force fs).fs = .ok io ∧
      same_params_for (expParams (optVal mo) (optVal io) entry) out
        (write_song music img out entry st force fs).fs = .ok true := by
  rcases hm : stored_params_for music (-1) fs with e | mo
  · simp [write_song, hm] at hok
  rcases hi : stored_params_for img (-1) fs with e | io
  · simp [write_song, hm, hi] at hok
  rcases hsame : same_params_for (expParams (optVal mo) (optVal io) entry)
      out fs with e | b
  · simp [write_song, hm, hi, hsame] at hok
  rcases b with _ | _
  case false =>
    by_cases hex : ((fs.files out).isSome && !force) = true
    · simp [write_song, hm, hi, hsame, hex] at hok
    · have hex' : ((fs.files out).isSome && !force) = false := by
        simpa using hex
      have heqR : write_song music img out entry st force fs =
          write_song_rebuild music img out entry st
            (write_converted_file music out st fs) := by
        simp [write_song, hm, hi, hsame, hex']
      rw [heqR] at hok ⊢
      rcases hc : (write_converted_file music out st fs).res with e | cp
      · simp [write_song_rebuild, hc] at hok
      have cpost := wcf_post d4 d2 hc
      obtain ⟨CF, CS, ⟨m, hm2⟩, ⟨fdo, hfo⟩⟩ := cpost
      have heq2 : write_song_rebuild music img out entry st
          (write_converted_file music out st fs) =
          ⟨(write_song_finish out entry (some m)
              (write_proc_image img st.min_img_size st.out_dim
                (write_converted_file music out st fs).fs)).res,
           (write_song_finish out entry (some m)
              (write_proc_image img st.min_img_size st.out_dim
                (write_converted_file music out st fs).fs)).fs,
           (write_converted_file music out st fs).ev ++
             (write_song_finish out entry (some m)
              (write_proc_image img st.min_img_size st.out_dim
                (write_converted_file music out st fs).fs)).ev⟩ := by
        simp [write_song_rebuild, hc, hm2]
      rw [heq2] at hok ⊢
      rcases hi2 : (write_proc_image img st.min_img_size st.out_dim
          (write_converted_file music out st fs).fs).res with e | ipd
      · simp [write_song_finish, hi2] at hok
      obtain ⟨ip, data⟩ := ipd
      have ipost := wpi_post hi2
      have hsplitI : write_proc_image img st.min_img_size st.out_dim
          (write_converted_file music out st fs).fs =
          ⟨.ok (ip, data),
           (write_proc_image img st.min_img_size st.out_dim
             (write_converted_file music out st fs).fs).fs,
           (write_proc_image img st.min_img_size st.out_dim
             (write_converted_file music out st fs).fs).ev⟩ := by
        rw [← hi2]
      rw [hsplitI] at hok ⊢
      have fpost := finish_post hok
      refine ⟨some m, some ip, ?_, ?_, ?_⟩
      · -- the source audio fingerprint survives to the final state
        have hf2 : (write_song_finish out entry (some m)
            ⟨.ok (ip, data),
             (write_proc_image img st.min_img_size st.out_dim
               (write_converted_file music out st fs).fs).fs,
             (write_proc_image img st.min_img_size st.out_dim
               (write_converted_file music out st fs).fs).ev⟩).fs.files music =
            (write_converted_file music out st fs).fs.files music := by
          rw [fpost.1 music d2, ipost.1]
        have hs2 : (write_song_finish out entry (some m)
            ⟨.ok (ip, data),
             (write_proc_image img st.min_img_size st.out_dim
               (write_converted_file music out st fs).fs).fs,
             (write_proc_image img st.min_img_size st.out_dim
               (write_converted_file music out st fs).fs).ev⟩).fs.sides music =
            (write_converted_file music out st fs).fs.sides music := by
          rw [fpost.2.1 music d2, ipost.2.1 music d1]
        rw [stored_congr _ _ hf2 hs2]
        exact hm2
      · -- the source image fingerprint survives to the final state
        have hcg := stored_congr img (-1)
          (by rw [fpost.1 img d3]) (fpost.2.1 img d3)
        rw [hcg]
        exact ipost.2.2
      · -- and the output's stored fingerprint matches the recomputation
        simp only [same_params_for, expParams, fpost.2.2, optVal, Option.getD]
        rw [PyVal.beq_refl]
  case true =>
    have heq : write_song music img out entry st force fs = ⟨.ok (), fs, []⟩ := by
      simp [write_song, hm, hi, hsame]
    rw [heq]
    exact ⟨mo, io, hm, hi, hsame⟩

/-! ## Claim theorems -/

/-- C1: Top-level idempotence.  For a track built successfully by
`write_song` (distinct source/art/output/cache paths), a second call on the
resulting state — with the source audio, source image, tag entry and stored
fingerprints unchanged — recomputes the expected composite fingerprint
`{music_params, img_params, entry}`, finds it equal to the fingerprint
stored beside the final output file, and returns immediately: same state,
no transcoder invocation, no file, tag or fingerprint-sidecar write (empty
event trace). -/
theorem c1_top_idempotence {music img out : String} {entry : PyVal}
    {st : Settings} {force force' : Bool} {fs : FS}
    (d1 : music ≠ img) (d2 : music ≠ out) (d3 : img ≠ out)
    (d4 : music ≠ convName music st)
    (hok : (write_song music img out entry st force fs).res = .ok ()) :
    write_song music img out entry st force'
      ((write_song music img out entry st force fs).fs) =
      ⟨.ok (), (write_song music img out entry st force fs).fs, []⟩ := by
  obtain ⟨mo, io, h1, h2, h3⟩ := write_song_post d1 d2 d3 d4 hok
  generalize hG : (write_song music img out entry st force fs).fs = fs2
    at h1 h2 h3 ⊢
  simp [write_song, h1, h2, h3]

/-- C1 witness: a concrete first build succeeds, and the theorem applies to
its final state. -/
theorem c1_top_idempotence_witness :
    (write_song "m.wav" "c.jpg" "o.mp3" exEntry exSettings false exFS).res =
      .ok () ∧
    write_song "m.wav" "c.jpg" "o.mp3" exEntry exSettings false
      ((write_song "m.wav" "c.jpg" "o.mp3" exEntry exSettings false exFS).fs) =
      ⟨.ok (),
       (write_song "m.wav" "c.jpg" "o.mp3" exEntry exSettings false exFS).fs,
       []⟩ := by
  have hok : (write_song "m.wav" "c.jpg" "o.mp3" exEntry exSettings false
      exFS).res = .ok () := by
    simp +decide [write_song, write_song_rebuild, write_song_finish,
      stored_params_for, same_params_for, write_converted_file, convert_file,
      convert_file_rest, convName, write_hash_for_fname, write_params_for,
      hashParams, md5digest, write_proc_image, resize_img, tupLt, write_tags,
      alookup, expParams, optVal, jr, jrList, jrKvs, sortKeys, insortKey,
      fmtDate, PyVal.beq, FS.writeFile, FS.writeSide, FS.utimeSide, pjoin,
      basename, dirpart, splitextRoot, pyStr, convParams, exFS, exSettings,
      exEntry, Except.map]
  exact ⟨hok, c1_top_idempotence (by decide) (by decide) (by decide)
    (by decide) hok⟩

/-- C4: Conflict on existing destination.  When the final output file
exists, the recomputed expected composite fingerprint does not match the
stored one (`same_params_for` is `false`) and `force` is off, `write_song`
fails fatally with a `RuntimeError` naming the output path, and nothing is
written: the filesystem is unchanged and the event trace is empty (no
transcoding, no tag write, no fingerprint write). -/
theorem c4_conflict_guard {music img out : String} {entry : PyVal}
    {st : Settings} {fs : FS} {mo io : Option PyVal}
    (hm : stored_params_for music (-1) fs = .ok mo)
    (hi : stored_params_for img (-1) fs = .ok io)
    (hsame : same_params_for (expParams (optVal mo) (optVal io) entry) out fs =
      .ok false)
    (hex : (fs.files out).isSome = true) :
    write_song music img out entry st false fs =
      ⟨.error (.runtimeError ("File " ++ out ++ " exists")), fs, []⟩ := by
  simp [write_song, hm, hi, hsame, hex]

/-- C4 witness: concrete conflicting state (existing output, no stored
fingerprints), evaluated hypotheses, and the guard firing. -/
theorem c4_conflict_guard_witness :
    stored_params_for "m.wav" (-1) exFSConflict = .ok Option.none ∧
    stored_params_for "c.jpg" (-1) exFSConflict = .ok Option.none ∧
    same_params_for (expParams (optVal Option.none) (optVal Option.none)
      exEntry) "o.mp3" exFSConflict = .ok false ∧
    (exFSConflict.files "o.mp3").isSome = true ∧
    write_song "m.wav" "c.jpg" "o.mp3" exEntry exSettings false exFSConflict =
      ⟨.error (.runtimeError ("File " ++ "o.mp3" ++ " exists")),
       exFSConflict, []⟩ :=
  ⟨rfl, rfl, rfl, rfl, c4_conflict_guard rfl rfl rfl rfl⟩

/-- C2 (amended): Fingerprint Store read contract.  For a tracked file that
exists, `stored_params_for` returns the stored fingerprint iff a sidecar
exists and its mtime is AT LEAST (not strictly after) the tracked file's
mtime plus the caller-supplied tolerance; otherwise it returns `None`, and
it never raises. -/
theorem c2_store_read_contract {p : String} {t : Int} {fs : FS} {fd : FData}
    (hf : fs.files p = some fd) :
    (∀ sd, fs.sides p = some sd → fd.mtime + t ≤ sd.mtime →
        stored_params_for p t fs = .ok (some sd.v)) ∧
    (∀ sd, fs.sides p = some sd → sd.mtime < fd.mtime + t →
        stored_params_for p t fs = .ok Option.none) ∧
    (fs.sides p = Option.none → stored_params_for p t fs = .ok Option.none) ∧
    (∃ r, stored_params_for p t fs = .ok r) := by
  refine ⟨?_, ?_, ?_, ?_⟩
  · intro sd hs hle
    have hnl : ¬(sd.mtime < fd.mtime + t) := by omega
    simp [stored_params_for, hs, hf, hnl]
  · intro sd hs hlt
    simp [stored_params_for, hs, hf, hlt]
  · intro hs
    simp [stored_params_for, hs]
  · rcases hs : fs.sides p with _ | sd
    · exact ⟨Option.none, by simp [stored_params_for, hs]⟩
    · by_cases hlt : sd.mtime < fd.mtime + t
      · exact ⟨Option.none, by simp [stored_params_for, hs, hf, hlt]⟩
      · exact ⟨some sd.v, by simp [stored_params_for, hs, hf, hlt]⟩

/-- C2 witness: the contract applied at a concrete tracked file. -/
theorem c2_store_read_contract_witness :
    exFSStore.files "f" = some ⟨10, .bytes 0⟩ ∧
    ((∀ sd, exFSStore.sides "f" = some sd →
        (⟨10, FContent.bytes 0⟩ : FData).mtime + 0 ≤ sd.mtime →
        stored_params_for "f" 0 exFSStore = .ok (some sd.v)) ∧
     (∀ sd, exFSStore.sides "f" = some sd →
        sd.mtime < (⟨10, FContent.bytes 0⟩ : FData).mtime + 0 →
        stored_params_for "f" 0 exFSStore = .ok Option.none) ∧
     (exFSStore.sides "f" = Option.none →
        stored_params_for "f" 0 exFSStore = .ok Option.none) ∧
     (∃ r, stored_params_for "f" 0 exFSStore = .ok r)) :=
  ⟨rfl, c2_store_read_contract rfl⟩

/-- C2 counterexample: the claim's STRICT freshness condition fails on the
code.  With tolerance 0, a sidecar whose mtime exactly equals the tracked
file's mtime plus the tolerance is returned although it is not strictly
after it; and with the default tolerance (-1), a sidecar strictly OLDER
than its tracked file is still returned, contradicting the claimed
"older than or equal is treated as absent" invariant. -/
theorem c2_store_read_counterexample :
    (stored_params_for "f" 0 exFSStore = .ok (some (.int 7)) ∧
      ¬((10 : Int) + 0 < 10)) ∧
    (stored_params_for "g" (-1) exFSStore = .ok (some (.int 8)) ∧
      (9 : Int) < 10) :=
  ⟨⟨rfl, by omega⟩, ⟨rfl, by omega⟩⟩

/-- The search loop returns the first candidate directory holding the file,
else the not-found error naming the last candidate and the whole search
sequence. -/
theorem find_file_go_spec (fbase : String) (sp : List String) (fs : FS) :
    ∀ l, find_file_go fbase sp fs l =
      (match l.find? (fun dn => (fs.files (pjoin dn fbase)).isSome) with
       | some dn => .ok (pjoin dn fbase)
       | Option.none => .error (.runtimeError
           ("Could not find " ++ pjoin (sp.getLastD ".") fbase ++ " in " ++
            String.intercalate ":" sp)))
  | [] => by simp [find_file_go]
  | dn :: rest => by
    by_cases h : (fs.files (pjoin dn fbase)).isSome = true
    · simp [find_file_go, h, List.find?_cons_of_pos]
    · have h' : (fs.files (pjoin dn fbase)).isSome = false := by
        simpa using h
      simp [find_file_go, h', List.find?_cons_of_neg,
        find_file_go_spec fbase sp fs rest]

/-- C10: `find_file` search-order and shadowing.  The candidate list is the
configured paths with `'.'` PREPENDED; the first candidate directory
containing the file (in that order) wins, so a file of the same name in the
working directory shadows every configured search path; and the
`RuntimeError` on a total miss interpolates the last candidate tried and
lists the whole `'.'`-prefixed search sequence. -/
theorem c10_find_file_search_order (fbase : String) (paths : List String)
    (fs : FS) :
    (find_file fbase paths fs =
      (match ("." :: paths).find?
          (fun dn => (fs.files (pjoin dn fbase)).isSome) with
       | some dn => .ok (pjoin dn fbase)
       | Option.none => .error (.runtimeError
           ("Could not find " ++ pjoin (("." :: paths).getLastD ".") fbase ++
            " in " ++ String.intercalate ":" ("." :: paths))))) ∧
    ((fs.files (pjoin "." fbase)).isSome = true →
      find_file fbase paths fs = .ok (pjoin "." fbase)) := by
  constructor
  · exact find_file_go_spec fbase ("." :: paths) fs ("." :: paths)
  · intro h
    simp [find_file, find_file_go, h]

/-- C10 witness: with `x` present both in the working directory and in the
search path `w`, the working-directory copy wins. -/
theorem c10_find_file_search_order_witness :
    (exFSShadow.files (pjoin "." "x")).isSome = true ∧
    find_file "x" ["w"] exFSShadow = .ok (pjoin "." "x") :=
  ⟨rfl, (c10_find_file_search_order "x" ["w"] exFSShadow).2 rfl⟩

/-- `jr` distributes over the composite conversion fingerprint (the two
keys are already in sorted order). -/
theorem jr_convParams (a : PyVal) (sox : List PyVal) :
    jr (convParams a sox) = convParams (jr a) (jrList sox) := by
  simp +decide [convParams, jr, jrKvs, jrList, sortKeys, insortKey]

/-- C3: Conversion-stage idempotence.  First: when the artifact's stored
fingerprint equals the expected composite fingerprint
`{in_params: source leaf fingerprint, sox_params: parameters}`,
`convert_file` returns it without invoking the transcoder and without
touching the filesystem.  Second: after one successful
`write_converted_file`, a second destination sharing the same source (the
cache key) is produced from the cache with NO transcoder invocation in its
event trace. -/
theorem c3_conversion_cache :
    (∀ (inf outf : String) (sox : List PyVal) (fs : FS) (ip : PyVal),
      stored_params_for inf (-1) fs = .ok (some ip) →
      stored_params_for outf (-1) fs = .ok (some (convParams ip sox)) →
      convert_file inf outf sox fs = ⟨.ok (convParams ip sox), fs, []⟩) ∧
    (∀ (inf out1 out2 : String) (st : Settings) (fs : FS) (pv : PyVal),
      inf ≠ convName inf st → out1 ≠ inf → out1 ≠ convName inf st →
      jrList st.sox_params = st.sox_params →
      (∀ v, stored_params_for inf (-1) fs = .ok (some v) → jr v = v) →
      (write_converted_file inf out1 st fs).res = .ok pv →
      (write_converted_file inf out2 st
        ((write_converted_file inf out1 st fs).fs)).res = .ok pv ∧
      ((write_converted_file inf out2 st
        ((write_converted_file inf out1 st fs).fs)).ev.all
          (fun e => !e.isSox)) = true) := by
  have part1 : ∀ (inf outf : String) (sox : List PyVal) (fs : FS) (ip : PyVal),
      stored_params_for inf (-1) fs = .ok (some ip) →
      stored_params_for outf (-1) fs = .ok (some (convParams ip sox)) →
      convert_file inf outf sox fs = ⟨.ok (convParams ip sox), fs, []⟩ := by
    intro inf outf sox fs ip hin hout
    simp [convert_file, convert_file_rest, hin, hout, PyVal.beq_refl]
  refine ⟨part1, ?_⟩
  intro inf out1 out2 st fs pv hd1 hd2 hd3 hsox hstable hok
  rcases hc : (convert_file inf (convName inf st) st.sox_params fs).res
    with e | cp
  · simp [write_converted_file, hc] at hok
  have post := convert_post hd1 hc
  obtain ⟨CF, CS, ⟨inpv, hsin, hpv, hstab⟩, ⟨spv, hsout, hspv⟩, ⟨fdo, hfo⟩⟩ :=
    post
  have heq1 : write_converted_file inf out1 st fs =
      ⟨.ok cp,
       (convert_file inf (convName inf st) st.sox_params fs).fs.writeFile
         out1 fdo.data,
       (convert_file inf (convName inf st) st.sox_params fs).ev ++
         [.copy (convName inf st) out1]⟩ := by
    simp [write_converted_file, hc, hfo]
  rw [heq1] at hok ⊢
  have hcp : cp = pv := by simpa using hok
  subst hcp
  have hin1 : stored_params_for inf (-1)
      ((convert_file inf (convName inf st) st.sox_params fs).fs.writeFile
        out1 fdo.data) = .ok (some inpv) := by
    have hcg := stored_congr inf (-1)
      (FS.writeFile_files_ne _ fdo.data (Ne.symm hd2))
      (congrFun (FS.writeFile_sides
        (convert_file inf (convName inf st) st.sox_params fs).fs out1
        fdo.data) inf)
    rw [hcg]
    exact hsin
  have hjr : jr inpv = inpv := by
    rcases hstab with h | h
    · exact hstable inpv h
    · exact h
  have hspv' : spv = convParams inpv st.sox_params := by
    rcases hspv with h | h
    · rw [h, hpv]
    · rw [h, hpv, jr_convParams, hjr, hsox]
  have hconv1 : stored_params_for (convName inf st) (-1)
      ((convert_file inf (convName inf st) st.sox_params fs).fs.writeFile
        out1 fdo.data) = .ok (some (convParams inpv st.sox_params)) := by
    have hcg := stored_congr (convName inf st) (-1)
      (FS.writeFile_files_ne _ fdo.data (Ne.symm hd3))
      (congrFun (FS.writeFile_sides
        (convert_file inf (convName inf st) st.sox_params fs).fs out1
        fdo.data) (convName inf st))
    rw [hcg, hsout, hspv']
  have hsecond := part1 inf (convName inf st) st.sox_params
    ((convert_file inf (convName inf st) st.sox_params fs).fs.writeFile
      out1 fdo.data) inpv hin1 hconv1
  have hfo1 : ((convert_file inf (convName inf st) st.sox_params fs).fs.writeFile
      out1 fdo.data).files (convName inf st) = some fdo := by
    rw [FS.writeFile_files_ne _ fdo.data (Ne.symm hd3)]
    exact hfo
  have heq2 : write_converted_file inf out2 st
      ((convert_file inf (convName inf st) st.sox_params fs).fs.writeFile
        out1 fdo.data) =
      ⟨.ok (convParams inpv st.sox_params),
       ((convert_file inf (convName inf st) st.sox_params fs).fs.writeFile
         out1 fdo.data).writeFile out2 fdo.data,
       [.copy (convName inf st) out2]⟩ := by
    simp [write_converted_file, hsecond, hfo1]
  rw [heq2]
  constructor
  · show Except.ok (convParams inpv st.sox_params) = .ok cp
    rw [hpv]
  · simp [Event.isSox]

/-- C3 witness: the skip at a concrete up-to-date cache state, and a second
destination produced from the cache with a sox-free event trace. -/
theorem c3_conversion_cache_witness :
    convert_file "m.wav" "cv/m.mp3" [.int 9] exFSConv =
      ⟨.ok (convParams (hashParams (.bytes 1)) [.int 9]), exFSConv, []⟩ ∧
    ((write_converted_file "m.wav" "p.mp3" exSettings
        ((write_converted_file "m.wav" "o.mp3" exSettings exFS).fs)).res =
      .ok (convParams (hashParams (.bytes 1)) [.int 9]) ∧
     ((write_converted_file "m.wav" "p.mp3" exSettings
        ((write_converted_file "m.wav" "o.mp3" exSettings exFS).fs)).ev.all
        (fun e => !e.isSox)) = true) := by
  constructor
  · exact c3_conversion_cache.1 "m.wav" "cv/m.mp3" [.int 9] exFSConv
      (hashParams (.bytes 1)) rfl rfl
  · refine c3_conversion_cache.2 "m.wav" "o.mp3" "p.mp3" exSettings exFS
      (convParams (hashParams (.bytes 1)) [.int 9])
      (by decide) (by decide) (by decide)
      (by simp [exSettings, jrList, jr])
      (by intro v h; simp [stored_params_for, exFS] at h) ?_
    simp +decide [write_converted_file, convert_file, convert_file_rest,
      convName, write_hash_for_fname, write_params_for, hashParams,
      md5digest, stored_params_for, jr, jrList, jrKvs, sortKeys, insortKey,
      fmtDate, PyVal.beq, FS.writeFile, FS.writeSide, FS.utimeSide, pjoin,
      basename, dirpart, splitextRoot, pyStr, convParams, exFS, exSettings,
      Except.map]

/-- C9 (amended): NotFound aborts the batch.  A source absent from every
search path makes `find_file` fail fatally with the "not found" error
listing the whole '.'-prefixed search sequence; `build_one` then fails with
that error having written nothing, and — since the `build` loop has no
exception handling — `build_all` on a track list starting with that track
returns the same error immediately: the remaining entries are NOT built
(empty event trace, unchanged state). -/
theorem c9_notfound_aborts_batch :
    (∀ (fbase : String) (paths : List String) (fs : FS),
      (∀ dn ∈ ("." :: paths), fs.files (pjoin dn fbase) = Option.none) →
      find_file fbase paths fs = .error (.runtimeError
        ("Could not find " ++ pjoin (("." :: paths).getLastD ".") fbase ++
         " in " ++ String.intercalate ":" ("." :: paths)))) ∧
    (∀ (fbase : String) (cfg : PyVal) (rest : List (String × PyVal))
       (st : Settings) (force : Bool) (fs : FS) (e : Err),
      find_file fbase st.wav_paths fs = .error e →
      build_one fbase cfg st force fs = ⟨.error e, fs, []⟩ ∧
      build_all ((fbase, cfg) :: rest) st force fs = ⟨.error e, fs, []⟩) := by
  constructor
  · intro fbase paths fs hmiss
    unfold find_file
    rw [find_file_go_spec fbase ("." :: paths) fs ("." :: paths)]
    have hnone : ("." :: paths).find?
        (fun dn => (fs.files (pjoin dn fbase)).isSome) = Option.none := by
      rw [List.find?_eq_none]
      intro dn hdn
      simp [hmiss dn hdn]
    rw [hnone]
  · intro fbase cfg rest st force fs e hff
    have hb1 : build_one fbase cfg st force fs = ⟨.error e, fs, []⟩ := by
      simp [build_one, hff]
    exact ⟨hb1, by simp [build_all, hb1]⟩

/-- C9 witness: the amended behaviour at a concrete missing source. -/
theorem c9_notfound_aborts_batch_witness :
    find_file "missing.wav" ["w"] exFS9 =
      .error (.runtimeError "Could not find w/missing.wav in .:w") ∧
    (build_one "missing.wav" exCfg exSettings false exFS9 =
      ⟨.error (.runtimeError "Could not find w/missing.wav in .:w"),
       exFS9, []⟩ ∧
     build_all [("missing.wav", exCfg), ("m.wav", exCfg)] exSettings false
       exFS9 =
      ⟨.error (.runtimeError "Could not find w/missing.wav in .:w"),
       exFS9, []⟩) := by
  have hmsg := c9_notfound_aborts_batch.1 "missing.wav" ["w"] exFS9
    (by intro dn hdn; fin_cases hdn <;> rfl)
  exact ⟨hmsg, c9_notfound_aborts_batch.2 "missing.wav" exCfg
    [("m.wav", exCfg)] exSettings false exFS9 _ hmsg⟩

/-- C9 counterexample: the claim's "batch loop continues" fails on the
code.  With two tracks where the first one's source is missing, the whole
run returns that track's "not found" error with an EMPTY event trace and an
unchanged filesystem: the second track is never built — even though (second
conjunct) the second track alone builds successfully, so a continuing loop
would have produced it. -/
theorem c9_batch_continues_counterexample :
    build_all [("missing.wav", exCfg), ("m.wav", exCfg)] exSettings false
      exFS9 =
      ⟨.error (.runtimeError "Could not find w/missing.wav in .:w"),
       exFS9, []⟩ ∧
    (build_one "m.wav" exCfg exSettings false exFS9).res = .ok () := by
  constructor
  · simp +decide [build_all, build_one, find_file, find_file_go, pjoin,
      String.intercalate, exFS9, exSettings, exCfg]
  · simp +decide [build_one, find_file, find_file_go, out_folder_for,
      out_fbaseroot_for, aupdate, alookup, aremove, DEF_TRACK_CONFIG,
      pyTruthy, fmt02d, write_song, write_song_rebuild, write_song_finish,
      stored_params_for, same_params_for, write_converted_file, convert_file,
      convert_file_rest, convName, write_hash_for_fname, write_params_for,
      hashParams, md5digest, write_proc_image, resize_img, tupLt, write_tags,
      expParams, optVal, jr, jrList, jrKvs, sortKeys, insortKey, fmtDate,
      PyVal.beq, FS.writeFile, FS.writeSide, FS.utimeSide, pjoin, basename,
      dirpart, splitextRoot, pyStr, convParams, exFS9, exSettings, exCfg,
      Except.map]

/-- C5: the image quality gate evaluated at a 700x10 image against the
default minimum size (640, 480).  The height (10) is far below the minimum
height (480), so the claim and the spec require a fatal rejection — but the
code's `img.size < tuple(min_img_size)` is a LEXICOGRAPHIC tuple
comparison, `(700, 10) < (640, 480)` is false because `700 > 640`, and the
image is silently accepted: `write_proc_image` succeeds and returns the
un-resized 700x10 art. -/
theorem c5_quality_gate_eval :
    (10 : Nat) < 480 ∧
    tupLt (700, 10) (640, 480) = false ∧
    (write_proc_image "c.jpg" (640, 480) 1024 exFSLowres).res =
      .ok (hashParams (.img 700 10 7), (700, 10, 7)) := by
  refine ⟨by decide, by decide, ?_⟩
  simp +decide [write_proc_image, stored_params_for, write_hash_for_fname,
    write_params_for, hashParams, md5digest, resize_img, tupLt, jr, jrKvs,
    jrList, sortKeys, insortKey, FS.writeSide, FS.utimeSide, exFSLowres,
    Except.map]

/-! ### Association-list lookup helpers for the naming theorems -/

theorem alookup_append (A B : List (String × PyVal)) (k : String)
    (h : alookup A k = Option.none) :
    alookup (A ++ B) k = alookup B k := by
  induction A with
  | nil => rfl
  | cons kv rest ih =>
    by_cases hk : kv.1 = k
    · rw [alookup] at h
      simp [hk] at h
    · rw [alookup] at h
      rw [if_neg hk] at h
      show alookup (kv :: (rest ++ B)) k = alookup B k
      rw [alookup]
      rw [if_neg hk]
      exact ih h

theorem alookup_map_fst_none (base : List (String × PyVal))
    (f : String × PyVal → PyVal) (k : String)
    (h : alookup base k = Option.none) :
    alookup (base.map (fun kv => (kv.1, f kv))) k = Option.none := by
  induction base with
  | nil => rfl
  | cons kv rest ih =>
    rw [alookup] at h
    by_cases hk : kv.1 = k
    · simp [hk] at h
    · rw [if_neg hk] at h
      simp only [List.map]
      rw [alookup, if_neg hk]
      exact ih h

theorem alookup_filter (upd : List (String × PyVal))
    (pred : String × PyVal → Bool) (k : String)
    (h : ∀ kv : String × PyVal, kv.1 = k → pred kv = true) :
    alookup (upd.filter pred) k = alookup upd k := by
  induction upd with
  | nil => rfl
  | cons kv rest ih =>
    by_cases hk : kv.1 = k
    · rw [List.filter_cons_of_pos (h kv hk)]
      rw [alookup, if_pos hk, alookup, if_pos hk]
    · by_cases hp : pred kv = true
      · rw [List.filter_cons_of_pos hp, alookup, if_neg hk, alookup,
          if_neg hk]
        exact ih
      · rw [List.filter_cons_of_neg (by simpa using hp), alookup, if_neg hk]
        exact ih

/-- Keys absent from the defaults read straight through the
`DEF_TRACK_CONFIG.copy().update(entry)` merge. -/
theorem alookup_aupdate (base upd : List (String × PyVal)) (k : String)
    (h : alookup base k = Option.none) :
    alookup (aupdate base upd) k = alookup upd k := by
  unfold aupdate
  rw [alookup_append _ _ _ (alookup_map_fst_none base _ k h)]
  rw [alookup_filter]
  intro kv hk
  rw [hk, h]
  rfl

/-- C6 (amended): Output naming derivation.  (1) `guess_folder` captures
the maximal leading `[A-Za-z_]` run when a digit immediately follows it and
strips underscores from BOTH ends (not only trailing), else `None`.
(2)-(3) The output folder is the explicit `folder_name` when present
(a string); `None` falls back to the guess, whose failure is fatal.
(4) The output base name is `{folder}[_disc{discnumber}][_side{track:02d}]`
where the disc suffix appears iff the entry's `disctotal` is an integer
greater than 1.  (5)-(6) The track suffix is zero-padded to two digits. -/
theorem c6_output_naming :
    (∀ fbase : String, guess_folder fbase =
      (match fbase.toList.drop
          ((fbase.toList.takeWhile isRunChar).length) with
       | c :: _ =>
         if ¬(fbase.toList.takeWhile isRunChar).isEmpty ∧ isDigitChar c then
           some (String.mk
             ((((fbase.toList.takeWhile isRunChar).dropWhile
                 (fun x => x = '_')).reverse.dropWhile
                 (fun x => x = '_')).reverse))
         else Option.none
       | [] => Option.none)) ∧
    (∀ (s fbase : String), out_folder_for (.str s) fbase = .ok s) ∧
    (∀ fbase : String, out_folder_for .none fbase =
      (match guess_folder fbase with
       | some g => .ok g
       | Option.none => .error .typeError)) ∧
    (∀ (fname : String) (kvs : List (String × PyVal)) (t : Int),
      alookup kvs "tracknumber" = some (.int t) →
      ((alookup kvs "disctotal" = Option.none →
        out_fbaseroot_for fname (.dict kvs) =
          .ok (fname ++ "_side" ++ fmt02d t)) ∧
       (∀ (n dn : Int), alookup kvs "disctotal" = some (.int n) →
        alookup kvs "discnumber" = some (.int dn) →
        out_fbaseroot_for fname (.dict kvs) =
          .ok (fname ++ (if 1 < n then "_disc" ++ toString dn else "") ++
               "_side" ++ fmt02d t)))) ∧
    (∀ t : Int, 0 ≤ t → t < 10 → fmt02d t = "0" ++ toString t) ∧
    (∀ t : Int, 10 ≤ t → fmt02d t = toString t) := by
  refine ⟨?_, ?_, ?_, ?_, ?_, ?_⟩
  · intro fbase
    simp only [guess_folder]
    cases hdrop : fbase.toList.drop
        ((fbase.toList.takeWhile isRunChar).length) with
    | nil =>
      by_cases hrun : (fbase.toList.takeWhile isRunChar).isEmpty
      · rw [if_pos hrun]
      · rw [if_neg hrun]
    | cons c rest =>
      show _ = (if ¬(fbase.toList.takeWhile isRunChar).isEmpty = true ∧
          isDigitChar c = true then
        some (String.mk ((((fbase.toList.takeWhile isRunChar).dropWhile
          (fun x => x = '_')).reverse.dropWhile (fun x => x = '_')).reverse))
        else Option.none)
      by_cases hrun : (fbase.toList.takeWhile isRunChar).isEmpty
      · rw [if_pos hrun, if_neg (fun h => h.1 hrun)]
      · rw [if_neg hrun]
        show (if isDigitChar c = true then
            some (String.mk (stripUnderscores
              (fbase.toList.takeWhile isRunChar)))
          else Option.none) = _
        by_cases hdig : isDigitChar c = true
        · rw [if_pos hdig, if_pos ⟨by simpa using hrun, hdig⟩]
          rw [stripUnderscores]
        · rw [if_neg hdig, if_neg (by simp [hdig])]
  · intro s fbase
    rfl
  · intro fbase
    rfl
  · intro fname kvs t ht
    have hDT : alookup DEF_TRACK_CONFIG "disctotal" = Option.none := rfl
    have hDN : alookup DEF_TRACK_CONFIG "discnumber" = Option.none := rfl
    have hTN : alookup DEF_TRACK_CONFIG "tracknumber" = Option.none := rfl
    constructor
    · intro hnone
      simp [out_fbaseroot_for, alookup_aupdate _ _ _ hDT,
        alookup_aupdate _ _ _ hTN, hnone, ht, optVal, pyTruthy]
    · intro n dn hdt hdn
      by_cases hn0 : n = 0
      · subst hn0
        simp [out_fbaseroot_for, alookup_aupdate _ _ _ hDT,
          alookup_aupdate _ _ _ hTN, hdt, ht, optVal, pyTruthy]
      · by_cases h1 : 1 < n
        · have hgt : n > 1 := h1
          simp [out_fbaseroot_for, alookup_aupdate _ _ _ hDT,
            alookup_aupdate _ _ _ hDN, alookup_aupdate _ _ _ hTN,
            hdt, hdn, ht, optVal, pyTruthy, pyStr, hn0, hgt, h1,
            String.append_assoc]
        · simp [out_fbaseroot_for, alookup_aupdate _ _ _ hDT,
            alookup_aupdate _ _ _ hTN, hdt, ht, optVal, pyTruthy, hn0, h1]
  · intro t h1 h2
    rw [fmt02d, if_pos ⟨h1, h2⟩]
  · intro t h10
    rw [fmt02d, if_neg (by omega)]

/-- C6 witness: the spec's own two naming scenarios, via the theorem. -/
theorem c6_output_naming_witness :
    out_fbaseroot_for "mass"
      (.dict [("disctotal", .int 2), ("discnumber", .int 2),
              ("tracknumber", .int 3)]) = .ok "mass_disc2_side03" ∧
    out_fbaseroot_for "berliozfunebre"
      (.dict [("tracknumber", .int 1)]) = .ok "berliozfunebre_side01" ∧
    fmt02d 3 = "0" ++ toString (3 : Int) := by
  refine ⟨?_, ?_, ?_⟩
  · exact (c6_output_naming.2.2.2.1 "mass"
      [("disctotal", .int 2), ("discnumber", .int 2), ("tracknumber", .int 3)]
      3 rfl).2 2 2 rfl rfl
  · exact (c6_output_naming.2.2.2.1 "berliozfunebre"
      [("tracknumber", .int 1)] 1 rfl).1 rfl
  · exact c6_output_naming.2.2.2.2.1 3 (by omega) (by omega)

/-- C6 counterexample: the claim's "TRAILING underscores stripped" reading
fails on the code, which strips underscores from both ends: on `"_a1"` the
code yields `"a"` while the claimed derivation yields `"_a"`. -/
theorem c6_output_naming_counterexample :
    guess_folder "_a1" = some "a" ∧
    guess_folder_claimed "_a1" = some "_a" ∧
    guess_folder "_a1" ≠ guess_folder_claimed "_a1" := by
  refine ⟨rfl, rfl, ?_⟩
  decide

/-! ### Normalization helpers (`strip_nones` lookups) -/

theorem alookup_eq_none_of_not_mem (kvs : List (String × PyVal)) (k : String)
    (h : ¬ k ∈ kvs.map Prod.fst) : alookup kvs k = Option.none := by
  induction kvs with
  | nil => rfl
  | cons kv rest ih =>
    simp only [List.map_cons, List.mem_cons] at h
    push_neg at h
    rw [alookup, if_neg (fun he => h.1 he.symm)]
    exact ih h.2

theorem alookup_stripKvs (kvs : List (String × PyVal)) (k : String)
    (hnd : (kvs.map Prod.fst).Nodup) :
    alookup (stripKvs kvs) k = (alookup kvs k).bind strip_nones := by
  induction kvs with
  | nil => rfl
  | cons kv rest ih =>
    obtain ⟨k', v⟩ := kv
    simp only [List.map_cons, List.nodup_cons] at hnd
    rcases hsv : strip_nones v with _ | s
    · rw [show stripKvs ((k', v) :: rest) = stripKvs rest by
        simp [stripKvs, hsv]]
      by_cases hk : k' = k
      · subst hk
        rw [ih hnd.2, alookup_eq_none_of_not_mem rest k' hnd.1]
        rw [alookup, if_pos rfl]
        simp [hsv]
      · rw [ih hnd.2, alookup, if_neg hk]
    · rw [show stripKvs ((k', v) :: rest) = (k', s) :: stripKvs rest by
        simp [stripKvs, hsv]]
      by_cases hk : k' = k
      · rw [alookup, if_pos hk, alookup, if_pos hk]
        simp [hsv]
      · rw [alookup, if_neg hk, alookup, if_neg hk]
        exact ih hnd.2

/-- Reading a field of a normalized configuration: lookup in the raw dict,
then `strip_nones` on the value (for distinct keys). -/
theorem cfgGet_strip (kvs : List (String × PyVal)) (k : String)
    (hnd : (kvs.map Prod.fst).Nodup) :
    MBInfo.cfgGet (.ok (strip_nones (.dict kvs))) k =
      (alookup kvs k).bind strip_nones := by
  rw [show strip_nones (.dict kvs) =
      (if (stripKvs kvs).isEmpty then Option.none
       else some (.dict (stripKvs kvs))) by simp [strip_nones]]
  by_cases he : (stripKvs kvs).isEmpty
  · rw [if_pos he]
    have h0 : stripKvs kvs = [] := by
      simpa [List.isEmpty_iff] using he
    rw [show MBInfo.cfgGet (.ok Option.none) k = Option.none from rfl]
    rw [← alookup_stripKvs kvs k hnd, h0]
    rfl
  · rw [if_neg he]
    rw [show MBInfo.cfgGet (.ok (some (.dict (stripKvs kvs)))) k =
      alookup (stripKvs kvs) k from rfl]
    exact alookup_stripKvs kvs k hnd

theorem strip_strOpt (o : Option String) :
    strip_nones (MBInfo.strOpt o) = o.map PyVal.str := by
  cases o <;> simp [MBInfo.strOpt, strip_nones]

theorem except_bind_ok {ε α β : Type} (a : α) (f : α → Except ε β) :
    (Except.ok a >>= f) = f a := rfl

theorem except_bind_err {ε α β : Type} (e : ε) (f : α → Except ε β) :
    ((Except.error e : Except ε α) >>= f) = .error e := rfl

/-- The keys of the `as_config` dict literal are distinct. -/
theorem as_config_kvs_keys_nodup (rec : MBRec) (cs : List Artist)
    (con orch : Artist) (pnames : List String) (dv yv : PyVal) :
    ((MBInfo.as_config_kvs rec cs con orch pnames dv yv).map
      Prod.fst).Nodup := by
  have h : (MBInfo.as_config_kvs rec cs con orch pnames dv yv).map Prod.fst =
      ["album", "artist", "artistsort", "albumartist", "albumartistsort",
       "composer", "conductor", "orchestra", "performer", "title",
       "originaldate", "originalyear", "period", "details"] := rfl
  rw [h]
  decide

/-- C7 (amended): Exactly-one invariants in normalization.  (i) More than
one CONDUCTOR is an `AssertionError` (the `_single` assertion).  (ii) More
than one COMPOSER is NOT an error: `as_config` silently uses the first
composer (`composers[0]`) for the artist fields.  (iii) Zero composers and
conductors yield empty defaults (fields omitted), not an error. -/
theorem c7_composer_conductor_invariant :
    (∀ (rec : MBRec) (cs ds : List Artist),
      MBInfo.composers rec = .ok cs → MBInfo.conductors rec = .ok ds →
      2 ≤ ds.length → MBInfo.as_config rec = .error .assertionError) ∧
    (∀ (rec : MBRec) (c0 : Artist) (cs' ds ps : List Artist)
       (ns : List String) (dv yv : PyVal),
      MBInfo.composers rec = .ok (c0 :: cs') →
      MBInfo.conductors rec = .ok ds → ds.length ≤ 1 →
      (MBInfo.orchestras rec).length ≤ 1 →
      MBInfo.performers rec = .ok ps → MBInfo.perfNames ps = .ok ns →
      MBInfo.dateProp rec = .ok dv → MBInfo.yearProp rec = .ok yv →
      (∃ v, MBInfo.as_config rec = .ok v) ∧
      MBInfo.cfgGet (MBInfo.as_config rec) "artist" =
        (artGet c0 "name").map .str) ∧
    (∀ (rec : MBRec) (ps : List Artist) (ns : List String) (dv yv : PyVal),
      MBInfo.composers rec = .ok [] → MBInfo.conductors rec = .ok [] →
      (MBInfo.orchestras rec).length ≤ 1 →
      MBInfo.performers rec = .ok ps → MBInfo.perfNames ps = .ok ns →
      MBInfo.dateProp rec = .ok dv → MBInfo.yearProp rec = .ok yv →
      (∃ v, MBInfo.as_config rec = .ok v) ∧
      MBInfo.cfgGet (MBInfo.as_config rec) "artist" = Option.none ∧
      MBInfo.cfgGet (MBInfo.as_config rec) "composer" = Option.none ∧
      MBInfo.cfgGet (MBInfo.as_config rec) "conductor" = Option.none) := by
  have hosing : ∀ rec : MBRec, (MBInfo.orchestras rec).length ≤ 1 →
      MBInfo.single (MBInfo.orchestras rec) [] =
        .ok ((MBInfo.orchestras rec).headD []) := by
    intro rec holen
    rcases hos : MBInfo.orchestras rec with _ | ⟨o, os'⟩
    · rfl
    · rw [hos] at holen
      rcases os' with _ | ⟨o2, os2⟩
      · rfl
      · simp at holen
  refine ⟨?_, ?_, ?_⟩
  · intro rec cs ds hc hd hlen
    rcases ds with _ | ⟨d1, ds1⟩
    · simp at hlen
    rcases ds1 with _ | ⟨d2, ds2⟩
    · simp at hlen
    simp [MBInfo.as_config, hc, hd, MBInfo.single, except_bind_ok,
      except_bind_err]
  · intro rec c0 cs' ds ps ns dv yv hc hd hdlen holen hps hn hdate hyear
    have hsing : MBInfo.single ds [] = .ok (ds.headD []) := by
      rcases ds with _ | ⟨d, ds'⟩
      · rfl
      · rcases ds' with _ | _
        · rfl
        · simp at hdlen
    have hcfg : MBInfo.as_config rec = .ok (strip_nones (.dict
        (MBInfo.as_config_kvs rec (c0 :: cs') (ds.headD [])
          ((MBInfo.orchestras rec).headD []) ns dv yv))) := by
      simp [MBInfo.as_config, hc, hd, hsing, hosing rec holen, hps, hn,
        hdate, hyear, except_bind_ok, except_bind_err]
    refine ⟨⟨_, hcfg⟩, ?_⟩
    rw [hcfg, cfgGet_strip _ _ (as_config_kvs_keys_nodup _ _ _ _ _ _ _)]
    rw [show alookup (MBInfo.as_config_kvs rec (c0 :: cs') (ds.headD [])
        ((MBInfo.orchestras rec).headD []) ns dv yv) "artist" =
        some (MBInfo.strOpt (artGet c0 "name")) by
      simp +decide [MBInfo.as_config_kvs, alookup]]
    simpa using strip_strOpt (artGet c0 "name")
  · intro rec ps ns dv yv hc hd holen hps hn hdate hyear
    have hcfg : MBInfo.as_config rec = .ok (strip_nones (.dict
        (MBInfo.as_config_kvs rec [] []
          ((MBInfo.orchestras rec).headD []) ns dv yv))) := by
      have hsing0 : MBInfo.single ([] : List Artist) [] = .ok [] := rfl
      simp [MBInfo.as_config, hc, hd, hsing0, hosing rec holen,
        hps, hn, hdate, hyear, except_bind_ok, except_bind_err]
    refine ⟨⟨_, hcfg⟩, ?_, ?_, ?_⟩
    · rw [hcfg, cfgGet_strip _ _ (as_config_kvs_keys_nodup _ _ _ _ _ _ _)]
      rw [show alookup (MBInfo.as_config_kvs rec [] []
          ((MBInfo.orchestras rec).headD []) ns dv yv) "artist" =
          some (MBInfo.strOpt (artGet [] "name")) by
        simp +decide [MBInfo.as_config_kvs, alookup]]
      simp [MBInfo.strOpt, artGet, strip_nones]
    · rw [hcfg, cfgGet_strip _ _ (as_config_kvs_keys_nodup _ _ _ _ _ _ _)]
      rw [show alookup (MBInfo.as_config_kvs rec [] []
          ((MBInfo.orchestras rec).headD []) ns dv yv) "composer" =
          some (.list ([] : List PyVal)) by
        simp +decide [MBInfo.as_config_kvs, alookup]]
      simp [strip_nones, stripList]
    · rw [hcfg, cfgGet_strip _ _ (as_config_kvs_keys_nodup _ _ _ _ _ _ _)]
      rw [show alookup (MBInfo.as_config_kvs rec [] []
          ((MBInfo.orchestras rec).headD []) ns dv yv) "conductor" =
          some (MBInfo.strOpt (artGet [] "name")) by
        simp +decide [MBInfo.as_config_kvs, alookup]]
      simp [MBInfo.strOpt, artGet, strip_nones]

/-- C7 witness: a record with two composers and one conductor satisfies the
hypotheses, normalizes without error and takes the FIRST composer as the
artist. -/
theorem c7_composer_conductor_invariant_witness :
    MBInfo.composers exRec2 = .ok [exArtComposer, exArtComposer2] ∧
    MBInfo.conductors exRec2 = .ok [exArtConductor] ∧
    ((∃ v, MBInfo.as_config exRec2 = .ok v) ∧
     MBInfo.cfgGet (MBInfo.as_config exRec2) "artist" =
       (artGet exArtComposer "name").map .str) :=
  ⟨rfl, rfl, c7_composer_conductor_invariant.2.1 exRec2 exArtComposer
    [exArtComposer2] [exArtConductor] [] [] .none .none rfl rfl
    (by decide) (by decide) rfl rfl rfl rfl⟩

/-- C7 counterexample: the claim's "a record with more than one composer is
an error (normalization does not silently pick the first composer)" fails
on the code: `exRec2` has two composers, yet `as_config` succeeds and the
artist field is the FIRST composer's name. -/
theorem c7_composer_conductor_invariant_counterexample :
    MBInfo.composers exRec2 = .ok [exArtComposer, exArtComposer2] ∧
    (∃ v, MBInfo.as_config exRec2 = .ok v) ∧
    MBInfo.cfgGet (MBInfo.as_config exRec2) "artist" =
      some (.str "Comp") := by
  have h1 : MBInfo.composers exRec2 = .ok [exArtComposer, exArtComposer2] :=
    rfl
  have h2 : MBInfo.conductors exRec2 = .ok [exArtConductor] := rfl
  have h3 : MBInfo.single [exArtConductor] [] = .ok exArtConductor := rfl
  have h4 : MBInfo.single (MBInfo.orchestras exRec2) [] = .ok [] := rfl
  have h5 : MBInfo.performers exRec2 = .ok [] := rfl
  have h6 : MBInfo.perfNames ([] : List Artist) = .ok [] := rfl
  have h7 : MBInfo.dateProp exRec2 = .ok .none := rfl
  have h8 : MBInfo.yearProp exRec2 = .ok .none := rfl
  have hcfg : MBInfo.as_config exRec2 = .ok (strip_nones (.dict
      (MBInfo.as_config_kvs exRec2 [exArtComposer, exArtComposer2]
        exArtConductor [] [] .none .none))) := by
    simp [MBInfo.as_config, h1, h2, h3, h4, h5, h6, h7, h8, except_bind_ok]
  refine ⟨h1, ⟨_, hcfg⟩, ?_⟩
  rw [hcfg, cfgGet_strip _ _ (as_config_kvs_keys_nodup _ _ _ _ _ _ _)]
  simp +decide [MBInfo.as_config_kvs, alookup, MBInfo.strOpt, artGet,
    exArtComposer, strip_nones]

/-- C8 (amended): Role coverage, with the ensembles double-counted.  For a
release with exactly one composer `c`, one conductor `d`, one orchestra
`o`, one choir `ch` and one unaffiliated performer `p`, classification
assigns every artist: `c` to composers, `d` to conductors, `o` to
orchestras, `ch` to choirs, and the performer list is `[p, ch, o]` — the
choir and orchestra are APPENDED to the performers.  In the normalized
output there is no choir field: the choir's name appears only under
`performer`, and the orchestra's name appears BOTH under `orchestra` and in
the `performer` list (under two roles). -/
theorem c8_role_partition {rec : MBRec} {c d p o ch : Artist}
    {nc nd np no nch : String} {dv yv : PyVal}
    (hpers : MBInfo.persons rec = [c, d, p])
    (hcs : MBInfo.composers rec = .ok [c])
    (hds : MBInfo.conductors rec = .ok [d])
    (hos : MBInfo.orchestras rec = [o])
    (hchs : MBInfo.choirs rec = [ch])
    (hpnot : (([c] ++ [d] ++ [ch] ++ [o]).contains p) = false)
    (hnc : artGet c "name" = some nc) (hnd : artGet d "name" = some nd)
    (hnp : artGet p "name" = some np) (hno : artGet o "name" = some no)
    (hnch : artGet ch "name" = some nch)
    (hdate : MBInfo.dateProp rec = .ok dv)
    (hyear : MBInfo.yearProp rec = .ok yv) :
    MBInfo.performers rec = .ok [p, ch, o] ∧
    (∃ v, MBInfo.as_config rec = .ok v) ∧
    MBInfo.cfgGet (MBInfo.as_config rec) "composer" =
      some (.list [.str nc]) ∧
    MBInfo.cfgGet (MBInfo.as_config rec) "conductor" = some (.str nd) ∧
    MBInfo.cfgGet (MBInfo.as_config rec) "orchestra" = some (.str no) ∧
    MBInfo.cfgGet (MBInfo.as_config rec) "performer" =
      some (.list [.str np, .str nch, .str no]) := by
  have hcc : (([c] ++ [d] ++ [ch] ++ [o]).contains c) = true := by
    simp
  have hcd : (([c] ++ [d] ++ [ch] ++ [o]).contains d) = true := by
    simp
  have hperf : MBInfo.performers rec = .ok [p, ch, o] := by
    simp at hpnot
    simp [MBInfo.performers, hcs, hds, hchs, hos, hpers, except_bind_ok,
      hcc, hcd, hpnot.1, hpnot.2.1, hpnot.2.2.1, hpnot.2.2.2]
  have hn : MBInfo.perfNames [p, ch, o] = .ok [np, nch, no] := by
    simp [MBInfo.perfNames, hnp, hnch, hno]
  have hcfg : MBInfo.as_config rec = .ok (strip_nones (.dict
      (MBInfo.as_config_kvs rec [c] d o [np, nch, no] dv yv))) := by
    have hsd : MBInfo.single [d] [] = .ok d := rfl
    have hso : MBInfo.single (MBInfo.orchestras rec) [] = .ok o := by
      rw [hos]
      rfl
    simp [MBInfo.as_config, hcs, hds, hsd, hso, hperf, hn, hdate, hyear,
      except_bind_ok]
  refine ⟨hperf, ⟨_, hcfg⟩, ?_, ?_, ?_, ?_⟩
  · rw [hcfg, cfgGet_strip _ _ (as_config_kvs_keys_nodup _ _ _ _ _ _ _)]
    simp +decide [MBInfo.as_config_kvs, alookup, MBInfo.strOpt, hnc,
      strip_nones, stripList]
  · rw [hcfg, cfgGet_strip _ _ (as_config_kvs_keys_nodup _ _ _ _ _ _ _)]
    simp +decide [MBInfo.as_config_kvs, alookup, MBInfo.strOpt, hnd,
      strip_nones]
  · rw [hcfg, cfgGet_strip _ _ (as_config_kvs_keys_nodup _ _ _ _ _ _ _)]
    simp +decide [MBInfo.as_config_kvs, alookup, MBInfo.strOpt, hno,
      strip_nones]
  · rw [hcfg, cfgGet_strip _ _ (as_config_kvs_keys_nodup _ _ _ _ _ _ _)]
    simp +decide [MBInfo.as_config_kvs, alookup, MBInfo.strOpt,
      strip_nones, stripList]

/-- C8 witness: the five-artist record satisfies the hypotheses and gets
the stated normalization. -/
theorem c8_role_partition_witness :
    MBInfo.persons exRec5 = [exArtComposer, exArtConductor, exArtPerf] ∧
    (MBInfo.performers exRec5 = .ok [exArtPerf, exArtChoir, exArtOrch] ∧
     (∃ v, MBInfo.as_config exRec5 = .ok v) ∧
     MBInfo.cfgGet (MBInfo.as_config exRec5) "composer" =
       some (.list [.str "Comp"]) ∧
     MBInfo.cfgGet (MBInfo.as_config exRec5) "conductor" =
       some (.str "Cond") ∧
     MBInfo.cfgGet (MBInfo.as_config exRec5) "orchestra" =
       some (.str "Orch") ∧
     MBInfo.cfgGet (MBInfo.as_config exRec5) "performer" =
       some (.list [.str "Perf", .str "Choir", .str "Orch"])) :=
  ⟨rfl, c8_role_partition rfl rfl rfl rfl rfl (by decide) rfl rfl rfl rfl
    rfl rfl rfl⟩

/-- C8 counterexample: the claim's "no artist appears under two roles in
the normalized output" fails on the code: for the five-artist record the
orchestra's name appears under `orchestra` AND inside the `performer` list
(and there is no `choir` field at all — the choir lands under `performer`). -/
theorem c8_role_partition_counterexample :
    MBInfo.orchestras exRec5 = [exArtOrch] ∧
    MBInfo.cfgGet (MBInfo.as_config exRec5) "orchestra" =
      some (.str "Orch") ∧
    MBInfo.cfgGet (MBInfo.as_config exRec5) "performer" =
      some (.list [.str "Perf", .str "Choir", .str "Orch"]) ∧
    MBInfo.cfgGet (MBInfo.as_config exRec5) "choir" = Option.none := by
  have h1 : MBInfo.composers exRec5 = .ok [exArtComposer] := rfl
  have h2 : MBInfo.conductors exRec5 = .ok [exArtConductor] := rfl
  have h3 : MBInfo.single [exArtConductor] [] = .ok exArtConductor := rfl
  have h4 : MBInfo.single (MBInfo.orchestras exRec5) [] = .ok exArtOrch :=
    rfl
  have h5 : MBInfo.performers exRec5 =
      .ok [exArtPerf, exArtChoir, exArtOrch] := rfl
  have h6 : MBInfo.perfNames [exArtPerf, exArtChoir, exArtOrch] =
      .ok ["Perf", "Choir", "Orch"] := rfl
  have h7 : MBInfo.dateProp exRec5 = .ok .none := rfl
  have h8 : MBInfo.yearProp exRec5 = .ok .none := rfl
  have hcfg : MBInfo.as_config exRec5 = .ok (strip_nones (.dict
      (MBInfo.as_config_kvs exRec5 [exArtComposer] exArtConductor exArtOrch
        ["Perf", "Choir", "Orch"] .none .none))) := by
    simp [MBInfo.as_config, h1, h2, h3, h4, h5, h6, h7, h8, except_bind_ok]
  refine ⟨rfl, ?_, ?_, ?_⟩ <;>
    rw [hcfg, cfgGet_strip _ _ (as_config_kvs_keys_nodup _ _ _ _ _ _ _)] <;>
    simp +decide [MBInfo.as_config_kvs, alookup, MBInfo.strOpt, artGet,
      exArtOrch, strip_nones, stripList]

end Amusic
